import Mathlib

/-!
# Verification of the amazon-scraper extraction logic

Shallow embedding of the pure extraction logic of the repository
(`utils.py`, `models.py`, `scraper.py`, `config.py`) together with proofs
about it.  HTML documents are modelled as records whose fields hold the
results of the fixed BeautifulSoup queries the code performs (one field per
query); all text processing performed on those query results (regular
expression searches, string splitting, joining, slicing) is translated into
executable Lean functions.  Python strings are modelled as Lean `String`
(in this toolchain a wrapper around `List Char`), Python `None` for string
variables as `Option String`, and numeric JSON payloads as `Nat`.
-/

/-! ## Python string primitives (models of `str` methods used by the code) -/

/-- Model of the whitespace test used by Python `str.split`/`str.strip`
(restricted to the ASCII whitespace characters). -/
def pyIsSpace (c : Char) : Bool :=
  c = ' ' || c = '\t' || c = '\n' || c = '\r' || c = '\x0b' || c = '\x0c'

/-- Model of Python `str.split()` (no separator argument) on a list of
characters: maximal runs of non-whitespace characters, in order; empty
chunks never occur. -/
def pySplit : List Char → List (List Char)
  | [] => []
  | c :: cs =>
    if pyIsSpace c then pySplit cs
    else ((c :: cs).takeWhile (fun x => !pyIsSpace x)) ::
      pySplit ((c :: cs).dropWhile (fun x => !pyIsSpace x))
termination_by l => l.length
decreasing_by
  · simp only [List.length_cons]; omega
  · rename_i hsp
    have h1 : (List.dropWhile (fun x => !pyIsSpace x) cs).length ≤ cs.length :=
      (List.dropWhile_sublist _).length_le
    rw [List.dropWhile_cons, if_pos (by simpa using hsp)]
    simp only [List.length_cons]; omega

theorem pySplit_nil : pySplit [] = [] := by rw [pySplit]

theorem pySplit_cons_space {c : Char} (cs : List Char) (h : pyIsSpace c = true) :
    pySplit (c :: cs) = pySplit cs := by rw [pySplit, if_pos h]

theorem pySplit_cons_word {c : Char} (cs : List Char) (h : pyIsSpace c = false) :
    pySplit (c :: cs) = ((c :: cs).takeWhile (fun x => !pyIsSpace x)) ::
      pySplit ((c :: cs).dropWhile (fun x => !pyIsSpace x)) := by
  rw [pySplit, if_neg (by simp [h])]

/-- Model of Python `str.lstrip()` on characters. -/
def pyLstrip (l : List Char) : List Char := l.dropWhile pyIsSpace

/-- Model of Python `str.strip()` on characters. -/
def pyStrip (l : List Char) : List Char :=
  ((l.dropWhile pyIsSpace).reverse.dropWhile pyIsSpace).reverse

/-- Model of Python `str.strip()` on strings. -/
def pyStripS (s : String) : String := ⟨pyStrip s.data⟩

/-- Model of `' '.join(words)`. -/
def pyJoinSpace (ws : List (List Char)) : List Char := List.intercalate [' '] ws

/-- `utils.clean_text`: `if not text: return ""` then
`' '.join(text.strip().split())`. -/
def clean_text (s : String) : String :=
  if s = "" then "" else ⟨pyJoinSpace (pySplit (pyStrip s.data))⟩

/-! ### Lemmas about `pySplit` -/

theorem pySplit_words_spec (l : List Char) :
    ∀ w ∈ pySplit l, w ≠ [] ∧ ∀ c ∈ w, pyIsSpace c = false := by
  induction l using pySplit.induct with
  | case1 => intro w hw; simp [pySplit_nil] at hw
  | case2 c cs hsp ih =>
      intro w hw
      rw [pySplit_cons_space cs hsp] at hw
      exact ih w hw
  | case3 c cs hsp ih =>
      intro w hw
      rw [pySplit_cons_word cs (by simpa using hsp)] at hw
      rcases List.mem_cons.mp hw with h | h
      · subst h
        constructor
        · simp [List.takeWhile_cons, hsp]
        · intro x hx
          have := List.mem_takeWhile_imp hx
          simpa using this
      · exact ih w h

theorem pySplit_all_spaces (s : List Char) (hs : ∀ c ∈ s, pyIsSpace c = true) :
    pySplit s = [] := by
  induction s with
  | nil => exact pySplit_nil
  | cons c cs ih =>
      rw [pySplit_cons_space cs (hs c (by simp))]
      exact ih fun x hx => hs x (by simp [hx])

theorem pySplit_append_spaces (l s : List Char) (hs : ∀ c ∈ s, pyIsSpace c = true) :
    pySplit (l ++ s) = pySplit l := by
  induction l using pySplit.induct with
  | case1 =>
      simpa [pySplit_nil] using pySplit_all_spaces s hs
  | case2 c cs hsp ih =>
      rw [List.cons_append, pySplit_cons_space _ hsp, pySplit_cons_space _ hsp]
      exact ih
  | case3 c cs hsp ih =>
      have hspf : pyIsSpace c = false := by simpa using hsp
      rw [List.cons_append, pySplit_cons_word _ hspf, pySplit_cons_word _ hspf]
      have htkS : List.takeWhile (fun x => !pyIsSpace x) s = [] := by
        cases s with
        | nil => rfl
        | cons a as => simp [List.takeWhile_cons, hs a (by simp)]
      have hdrS : List.dropWhile (fun x => !pyIsSpace x) s = s := by
        cases s with
        | nil => rfl
        | cons a as => simp [List.dropWhile_cons, hs a (by simp)]
      by_cases hlen :
          (List.takeWhile (fun x => !pyIsSpace x) (c :: cs)).length = (c :: cs).length
      · have htkall : List.takeWhile (fun x => !pyIsSpace x) (c :: cs) = c :: cs :=
          (List.takeWhile_sublist _).eq_of_length hlen
        have hall : ∀ x ∈ c :: cs, (fun x => !pyIsSpace x) x = true := by
          rw [← List.takeWhile_eq_self_iff]; exact htkall
        have hdrall : List.dropWhile (fun x => !pyIsSpace x) (c :: cs) = [] :=
          List.dropWhile_eq_nil_iff.mpr hall
        rw [show c :: (cs ++ s) = (c :: cs) ++ s from rfl, List.takeWhile_append,
          List.dropWhile_append, if_pos hlen, if_pos (by simp [hdrall]), htkall, htkS,
          hdrall, hdrS, List.append_nil, pySplit_all_spaces s hs, pySplit_nil]
      · have hdrne : ¬ (List.dropWhile (fun x => !pyIsSpace x) (c :: cs)).isEmpty = true := by
          intro hempty
          have : List.dropWhile (fun x => !pyIsSpace x) (c :: cs) = [] := by
            simpa [List.isEmpty_iff] using hempty
          have hall := List.dropWhile_eq_nil_iff.mp this
          exact hlen (by rw [List.takeWhile_eq_self_iff.mpr hall])
        rw [show c :: (cs ++ s) = (c :: cs) ++ s from rfl, List.takeWhile_append,
          List.dropWhile_append, if_neg hlen, if_neg hdrne, ih]

theorem pySplit_lstrip (l : List Char) : pySplit (pyLstrip l) = pySplit l := by
  induction l with
  | nil => rfl
  | cons c cs ih =>
      by_cases h : pyIsSpace c
      · rw [pyLstrip, List.dropWhile_cons, if_pos h, pySplit_cons_space cs h, ← ih]; rfl
      · rw [pyLstrip, List.dropWhile_cons, if_neg (by simpa using h)]

theorem pySplit_strip (l : List Char) : pySplit (pyStrip l) = pySplit l := by
  rw [pyStrip]
  set m := l.dropWhile pyIsSpace with hm
  have h1 : pySplit m = pySplit l := pySplit_lstrip l
  rw [← h1]
  have hsplitm : m = (m.reverse.dropWhile pyIsSpace).reverse
      ++ (m.reverse.takeWhile pyIsSpace).reverse := by
    conv_lhs => rw [← List.reverse_reverse m]
    rw [← List.reverse_append, List.takeWhile_append_dropWhile]
  conv_rhs => rw [hsplitm]
  rw [pySplit_append_spaces]
  intro c hc
  have : c ∈ m.reverse.takeWhile pyIsSpace := by simpa using hc
  exact List.mem_takeWhile_imp this

theorem intercalate_space_cons_cons (w w' : List Char) (rest : List (List Char)) :
    List.intercalate [' '] (w :: w' :: rest) = w ++ ' ' :: List.intercalate [' '] (w' :: rest) := by
  simp [List.intercalate, List.intersperse]

theorem pySplit_word_append (w t : List Char) (hw : w ≠ [])
    (hns : ∀ c ∈ w, pyIsSpace c = false) :
    pySplit (w ++ ' ' :: t) = w :: pySplit t := by
  cases w with
  | nil => exact absurd rfl hw
  | cons c cs =>
      have hc : pyIsSpace c = false := hns c (by simp)
      have hall : ∀ x ∈ c :: cs, (fun x => !pyIsSpace x) x = true := by
        intro x hx; simp [hns x hx]
      have htkall : List.takeWhile (fun x => !pyIsSpace x) (c :: cs) = c :: cs :=
        List.takeWhile_eq_self_iff.mpr hall
      have hdrall : List.dropWhile (fun x => !pyIsSpace x) (c :: cs) = [] :=
        List.dropWhile_eq_nil_iff.mpr hall
      rw [List.cons_append, pySplit_cons_word _ hc,
        show c :: (cs ++ ' ' :: t) = (c :: cs) ++ ' ' :: t from rfl,
        List.takeWhile_append, List.dropWhile_append,
        if_pos (by rw [htkall]), if_pos (by simp [hdrall])]
      have h1 : List.takeWhile (fun x => !pyIsSpace x) (' ' :: t) = [] := by
        simp [List.takeWhile_cons, pyIsSpace]
      have h2 : List.dropWhile (fun x => !pyIsSpace x) (' ' :: t) = ' ' :: t := by
        simp [List.dropWhile_cons, pyIsSpace]
      rw [h1, h2, List.append_nil, pySplit_cons_space t (by decide)]

theorem pySplit_single_word (w : List Char) (hw : w ≠ [])
    (hns : ∀ c ∈ w, pyIsSpace c = false) : pySplit w = [w] := by
  cases w with
  | nil => exact absurd rfl hw
  | cons c cs =>
      have hall : ∀ x ∈ c :: cs, (fun x => !pyIsSpace x) x = true := by
        intro x hx; simp [hns x hx]
      rw [pySplit_cons_word _ (hns c (by simp)), List.takeWhile_eq_self_iff.mpr hall,
        List.dropWhile_eq_nil_iff.mpr hall, pySplit_nil]

/-- Splitting is a left inverse of joining with single spaces, for nonempty
whitespace-free words. -/
theorem pySplit_intercalate (ws : List (List Char))
    (h : ∀ w ∈ ws, w ≠ [] ∧ ∀ c ∈ w, pyIsSpace c = false) :
    pySplit (List.intercalate [' '] ws) = ws := by
  induction ws with
  | nil => exact pySplit_nil
  | cons w rest ih =>
      cases rest with
      | nil =>
          rw [show List.intercalate [' '] [w] = w by simp [List.intercalate]]
          exact pySplit_single_word w (h w (by simp)).1 (h w (by simp)).2
      | cons w' rest' =>
          rw [intercalate_space_cons_cons,
            pySplit_word_append w _ (h w (by simp)).1 (h w (by simp)).2,
            ih (fun x hx => h x (by simp [hx]))]

theorem head?_intercalate_space (w : List Char) (rest : List (List Char)) (hw : w ≠ []) :
    (List.intercalate [' '] (w :: rest)).head? = w.head? := by
  cases rest with
  | nil => rw [show List.intercalate [' '] [w] = w by simp [List.intercalate]]
  | cons w' rest' =>
      rw [intercalate_space_cons_cons, List.head?_append]
      cases w with
      | nil => exact absurd rfl hw
      | cons c cs => rfl

theorem intercalate_space_ne_nil (w : List Char) (rest : List (List Char)) (hw : w ≠ []) :
    List.intercalate [' '] (w :: rest) ≠ [] := by
  intro hcontra
  have := head?_intercalate_space w rest hw
  rw [hcontra] at this
  cases w with
  | nil => exact hw rfl
  | cons c cs => simp at this

theorem head?_intercalate_nonspace (ws : List (List Char))
    (h : ∀ w ∈ ws, w ≠ [] ∧ ∀ c ∈ w, pyIsSpace c = false) :
    ∀ c, (List.intercalate [' '] ws).head? = some c → pyIsSpace c = false := by
  intro c hc
  cases ws with
  | nil => simp [show List.intercalate [' '] [] = ([] : List Char) from rfl] at hc
  | cons w rest =>
      rw [head?_intercalate_space w rest (h w (by simp)).1] at hc
      exact (h w (by simp)).2 c (List.mem_of_mem_head? hc)

theorem getLast?_intercalate_nonspace (ws : List (List Char))
    (h : ∀ w ∈ ws, w ≠ [] ∧ ∀ c ∈ w, pyIsSpace c = false) :
    ∀ c, (List.intercalate [' '] ws).getLast? = some c → pyIsSpace c = false := by
  induction ws with
  | nil => intro c hc; simp [show List.intercalate [' '] [] = ([] : List Char) from rfl] at hc
  | cons w rest ih =>
      intro c hc
      cases rest with
      | nil =>
          rw [show List.intercalate [' '] [w] = w by simp [List.intercalate]] at hc
          exact (h w (by simp)).2 c (List.mem_of_mem_getLast? hc)
      | cons w' rest' =>
          rw [intercalate_space_cons_cons, List.getLast?_append] at hc
          have hne := intercalate_space_ne_nil w' rest' (h w' (by simp)).1
          obtain ⟨x, xs, hx⟩ := List.exists_cons_of_ne_nil hne
          rw [hx, List.getLast?_cons_cons] at hc
          have : ((x :: xs).getLast?).isSome := by simp [List.getLast?_cons_cons]
          rw [Option.or_of_isSome this] at hc
          apply ih (fun y hy => h y (by simp [hy])) c
          rw [hx]
          exact hc

theorem mem_intercalate_space (ws : List (List Char)) :
    ∀ c ∈ List.intercalate [' '] ws, c = ' ' ∨ ∃ w ∈ ws, c ∈ w := by
  induction ws with
  | nil => intro c hc; simp [show List.intercalate [' '] [] = ([] : List Char) from rfl] at hc
  | cons w rest ih =>
      intro c hc
      cases rest with
      | nil =>
          rw [show List.intercalate [' '] [w] = w by simp [List.intercalate]] at hc
          exact Or.inr ⟨w, by simp, hc⟩
      | cons w' rest' =>
          rw [intercalate_space_cons_cons] at hc
          rcases List.mem_append.mp hc with h1 | h1
          · exact Or.inr ⟨w, by simp, h1⟩
          · rcases List.mem_cons.mp h1 with h2 | h2
            · exact Or.inl h2
            · rcases ih c h2 with h3 | ⟨w2, hw2, hcw2⟩
              · exact Or.inl h3
              · exact Or.inr ⟨w2, by simp [hw2], hcw2⟩

theorem chain'_intercalate_nonspace (ws : List (List Char))
    (h : ∀ w ∈ ws, w ≠ [] ∧ ∀ c ∈ w, pyIsSpace c = false) :
    (List.intercalate [' '] ws).Chain'
      (fun a b => ¬(pyIsSpace a = true ∧ pyIsSpace b = true)) := by
  induction ws with
  | nil => exact List.chain'_nil
  | cons w rest ih =>
      have hwchain : w.Chain' (fun a b => ¬(pyIsSpace a = true ∧ pyIsSpace b = true)) := by
        refine (List.pairwise_of_forall_mem_list ?_).chain'
        intro a ha b _ hab
        rw [(h w (by simp)).2 a ha] at hab
        exact absurd hab.1 (by simp)
      cases rest with
      | nil =>
          rw [show List.intercalate [' '] [w] = w by simp [List.intercalate]]
          exact hwchain
      | cons w' rest' =>
          rw [intercalate_space_cons_cons]
          refine List.chain'_append.mpr ⟨hwchain, ?_, ?_⟩
          · refine List.chain'_cons'.mpr ⟨?_, ih (fun x hx => h x (by simp [hx]))⟩
            intro y hy
            rw [head?_intercalate_space w' rest' (h w' (by simp)).1] at hy
            have : pyIsSpace y = false :=
              (h w' (by simp)).2 y (List.mem_of_mem_head? hy)
            intro hc; rw [this] at hc; exact absurd hc.2 (by simp)
          · intro x hx y hy
            have hxw : x ∈ w := List.mem_of_mem_getLast? hx
            have : pyIsSpace x = false := (h w (by simp)).2 x hxw
            intro hc; rw [this] at hc; exact absurd hc.1 (by simp)

theorem filter_nonspace_intercalate (ws : List (List Char))
    (h : ∀ w ∈ ws, w ≠ [] ∧ ∀ c ∈ w, pyIsSpace c = false) :
    (List.intercalate [' '] ws).filter (fun c => !pyIsSpace c) = ws.flatten := by
  induction ws with
  | nil => rfl
  | cons w rest ih =>
      have hfw : w.filter (fun c => !pyIsSpace c) = w :=
        List.filter_eq_self.mpr (fun a ha => by simp [(h w (by simp)).2 a ha])
      cases rest with
      | nil =>
          rw [show List.intercalate [' '] [w] = w by simp [List.intercalate]]
          simp [hfw]
      | cons w' rest' =>
          rw [intercalate_space_cons_cons, List.filter_append, hfw]
          have : List.filter (fun c => !pyIsSpace c) (' ' :: List.intercalate [' '] (w' :: rest'))
              = List.filter (fun c => !pyIsSpace c) (List.intercalate [' '] (w' :: rest')) := by
            simp [List.filter_cons, pyIsSpace]
          rw [this, ih (fun x hx => h x (by simp [hx]))]
          simp

theorem flatten_pySplit (l : List Char) :
    (pySplit l).flatten = l.filter (fun c => !pyIsSpace c) := by
  induction l using pySplit.induct with
  | case1 => simp [pySplit_nil]
  | case2 c cs hsp ih =>
      rw [pySplit_cons_space cs hsp, List.filter_cons]
      simp [hsp, ih]
  | case3 c cs hsp ih =>
      have hspf : pyIsSpace c = false := by simpa using hsp
      rw [pySplit_cons_word _ hspf, List.flatten_cons, ih]
      have hfilter_tk : List.filter (fun c => !pyIsSpace c)
          (List.takeWhile (fun x => !pyIsSpace x) (c :: cs))
          = List.takeWhile (fun x => !pyIsSpace x) (c :: cs) :=
        List.filter_eq_self.mpr (fun a ha => by simpa using List.mem_takeWhile_imp ha)
      conv_rhs => rw [← List.takeWhile_append_dropWhile (fun x => !pyIsSpace x) (c :: cs)]
      rw [List.filter_append, hfilter_tk]

theorem filter_nonspace_lstrip (l : List Char) :
    (l.dropWhile pyIsSpace).filter (fun c => !pyIsSpace c) = l.filter (fun c => !pyIsSpace c) := by
  induction l with
  | nil => rfl
  | cons c cs ih =>
      by_cases h : pyIsSpace c
      · rw [List.dropWhile_cons, if_pos h, ih, List.filter_cons]
        simp [h]
      · rw [List.dropWhile_cons, if_neg (by simpa using h)]

theorem filter_nonspace_strip (l : List Char) :
    (pyStrip l).filter (fun c => !pyIsSpace c) = l.filter (fun c => !pyIsSpace c) := by
  simp only [pyStrip, List.filter_reverse, filter_nonspace_lstrip, List.reverse_reverse]

theorem clean_text_data (s : String) :
    (clean_text s).data = List.intercalate [' '] (pySplit s.data) := by
  rw [clean_text]
  by_cases h : s = ""
  · subst h
    rw [if_pos rfl, show ("" : String).data = [] from rfl, pySplit_nil]
    rfl
  · rw [if_neg h]
    show List.intercalate [' '] (pySplit (pyStrip s.data)) = _
    rw [pySplit_strip]

theorem clean_text_idempotent (s : String) : clean_text (clean_text s) = clean_text s := by
  apply String.ext
  rw [clean_text_data, clean_text_data,
    pySplit_intercalate _ (pySplit_words_spec s.data)]

/-- **C9** (confirmed): `clean_text` returns the empty string for empty input;
otherwise it collapses every whitespace run to a single space and trims
leading/trailing whitespace — formally: its output never has two adjacent
whitespace characters, neither starts nor ends with whitespace, every
whitespace character it contains is a single `' '`, and the non-whitespace
characters are exactly those of the input in order; and it is idempotent:
`clean_text (clean_text x) = clean_text x` for every string `x`. -/
theorem C9_clean_text_spec :
    clean_text "" = "" ∧
    ∀ s : String,
      ((clean_text s).data.Chain' fun a b => ¬(pyIsSpace a = true ∧ pyIsSpace b = true)) ∧
      (∀ c, (clean_text s).data.head? = some c → pyIsSpace c = false) ∧
      (∀ c, (clean_text s).data.getLast? = some c → pyIsSpace c = false) ∧
      (∀ c ∈ (clean_text s).data, pyIsSpace c = true → c = ' ') ∧
      (clean_text s).data.filter (fun c => !pyIsSpace c)
        = s.data.filter (fun c => !pyIsSpace c) ∧
      clean_text (clean_text s) = clean_text s := by
  refine ⟨rfl, fun s => ?_⟩
  have hws := pySplit_words_spec s.data
  rw [clean_text_data]
  refine ⟨chain'_intercalate_nonspace _ hws, head?_intercalate_nonspace _ hws,
    getLast?_intercalate_nonspace _ hws, ?_, ?_, clean_text_idempotent s⟩
  · intro c hc hcsp
    rcases mem_intercalate_space _ c hc with h | ⟨w, hw, hcw⟩
    · exact h
    · rw [(hws w hw).2 c hcw] at hcsp
      exact absurd hcsp (by simp)
  · rw [filter_nonspace_intercalate _ hws, flatten_pySplit]

/-! ## Substring search primitives (models of Python `in`, `str.split`, `re` scans) -/

/-- `pat` is a prefix of `l` (character-exact). -/
def isPre : List Char → List Char → Bool
  | [], _ => true
  | _ :: _, [] => false
  | p :: ps, c :: cs => p = c && isPre ps cs

/-- Model of Python `pat in s` on character lists: `pat` occurs somewhere in `l`. -/
def containsSub (pat : List Char) : List Char → Bool
  | [] => isPre pat []
  | c :: cs => isPre pat (c :: cs) || containsSub pat cs

/-- Index of the first occurrence of `pat` in `l`, if any. -/
def idxOfSub (pat : List Char) : List Char → Option Nat
  | [] => if isPre pat [] then some 0 else none
  | c :: cs => if isPre pat (c :: cs) then some 0 else (idxOfSub pat cs).map (· + 1)

/-- Model of `s.split(sep)[0]`: everything before the first occurrence of
`sep` (the whole string if `sep` does not occur). -/
def takeBeforeFirst (sep l : List Char) : List Char :=
  match idxOfSub sep l with
  | some i => l.take i
  | none => l

/-- Model of Python `pat in s` on strings. -/
def strContains (s pat : String) : Bool := containsSub pat.data s.data

theorem isPre_iff_append (pat l : List Char) :
    isPre pat l = true ↔ ∃ t, l = pat ++ t := by
  induction pat generalizing l with
  | nil => simp [isPre]
  | cons p ps ih =>
      cases l with
      | nil => simp [isPre]
      | cons c cs =>
          rw [isPre]
          simp only [Bool.and_eq_true, decide_eq_true_eq, ih cs, List.cons_append,
            List.cons.injEq]
          constructor
          · rintro ⟨h1, t, h2⟩; exact ⟨t, h1.symm, h2⟩
          · rintro ⟨t, h1, h2⟩; exact ⟨h1.symm, t, h2⟩

theorem idxOfSub_spec (pat l : List Char) :
    ∀ i, idxOfSub pat l = some i →
      isPre pat (l.drop i) = true ∧ ∀ j < i, isPre pat (l.drop j) = false := by
  induction l with
  | nil =>
      intro i hi
      rw [idxOfSub] at hi
      split at hi
      · rename_i h
        cases hi
        exact ⟨h, fun j hj => absurd hj (by omega)⟩
      · cases hi
  | cons c cs ih =>
      intro i hi
      rw [idxOfSub] at hi
      split at hi
      · rename_i h
        cases hi
        exact ⟨h, fun j hj => absurd hj (by omega)⟩
      · rename_i h
        cases hidx : idxOfSub pat cs with
        | none => rw [hidx] at hi; cases hi
        | some k =>
            rw [hidx] at hi
            cases hi
            obtain ⟨h1, h2⟩ := ih k hidx
            refine ⟨h1, fun j hj => ?_⟩
            cases j with
            | zero => simpa using h
            | succ j' => exact h2 j' (by simp at hj; omega)

theorem idxOfSub_none (pat l : List Char) (h : idxOfSub pat l = none) :
    ∀ j, isPre pat (l.drop j) = false := by
  induction l with
  | nil =>
      intro j
      rw [idxOfSub] at h
      split at h
      · cases h
      · rename_i hp; simpa using hp
  | cons c cs ih =>
      intro j
      rw [idxOfSub] at h
      split at h
      · cases h
      · rename_i hp
        cases hidx : idxOfSub pat cs with
        | some k => rw [hidx] at h; cases h
        | none =>
            cases j with
            | zero => simpa using hp
            | succ j' => exact ih hidx j'

/-! ## Models of `utils.py` -/

/-- Character class of the regex `[\d\.,]` used by `extract_currency`. -/
def isAmtChar (c : Char) : Bool := c.isDigit || c = '.' || c = ','

/-- Character class of the regex `[^\d\s]` used by `extract_currency`. -/
def isSymChar (c : Char) : Bool := !c.isDigit && !pyIsSpace c

/-- First maximal run of characters satisfying `p` (models the leftmost
greedy match of `(cls+)` for a character class `cls`). -/
def firstRun (p : Char → Bool) : List Char → Option (List Char)
  | [] => none
  | c :: cs => if p c then some (c :: cs.takeWhile p) else firstRun p cs

/-- Backtracking tail of the match of `([^\d\s]+)\s*[\d\.,]+`: `taken` is the
reversed candidate symbol run; shrink it (longest first) until an amount
character follows after optional whitespace. -/
def symBacktrack : List Char → List Char → Option (List Char)
  | [], _ => none
  | t :: ts, rest =>
      if (match rest.dropWhile pyIsSpace with
          | c :: _ => isAmtChar c
          | [] => false)
      then some (t :: ts).reverse
      else symBacktrack ts (t :: rest)

/-- Leftmost match of `([^\d\s]+)\s*[\d\.,]+` (the captured group), modelling
the currency-symbol regex of `extract_currency`. -/
def symScan : List Char → Option (List Char)
  | [] => none
  | c :: cs =>
      if isSymChar c then
        match symBacktrack (c :: cs.takeWhile isSymChar).reverse (cs.dropWhile isSymChar) with
        | some g => some g
        | none => symScan cs
      else symScan cs
termination_by l => l.length
decreasing_by
  all_goals simp only [List.length_cons]; omega

/-- `utils.extract_currency`: returns `(currency_symbol, price)`; the symbol
defaults to `"$"`, the amount to `"Not found"`; thousands separators are
stripped from the amount. -/
def extract_currency (price_text : String) : String × String :=
  let currency_symbol : String :=
    match symScan price_text.data with
    | some g => ⟨pyStrip g⟩
    | none => "$"
  let price : String :=
    match firstRun isAmtChar price_text.data with
    | some g => ⟨g.filter (fun c => c ≠ ',')⟩
    | none => "Not found"
  (currency_symbol, price)

/-- The query component of a URL: the part after the first `'?'` that
precedes any `'#'` (models `urlparse(url).query`). -/
def urlQuery (url : List Char) : List Char :=
  match (url.takeWhile (fun c => c ≠ '#')).dropWhile (fun c => c ≠ '?') with
  | [] => []
  | _ :: rest => rest

/-- Hexadecimal-digit test (`0-9`, `a-f`, `A-F`). -/
def isHexDig (c : Char) : Bool :=
  c.isDigit || ('a' ≤ c.toLower && c.toLower ≤ 'f')

/-- Value of a single-byte percent escape. -/
def hexPairChar (a b : Char) : Char :=
  Char.ofNat (16 * (if a.isDigit then a.toNat - '0'.toNat
      else a.toLower.toNat - 'a'.toNat + 10)
    + (if b.isDigit then b.toNat - '0'.toNat else b.toLower.toNat - 'a'.toNat + 10))

/-- Model of `urllib.parse.unquote_plus` restricted to single-byte escapes:
`'+'` becomes a space and `%XX` (two hex digits) becomes the character with
code `XX`; anything else passes through. -/
def unquotePlus : List Char → List Char
  | [] => []
  | '+' :: rest => ' ' :: unquotePlus rest
  | '%' :: a :: b :: rest =>
      if isHexDig a && isHexDig b then hexPairChar a b :: unquotePlus rest
      else '%' :: unquotePlus (a :: b :: rest)
  | c :: rest => c :: unquotePlus rest

/-- Model of `urllib.parse.parse_qsl` with default arguments: fields are
split on `'&'`, fields without `'='` or with an empty value are dropped,
names and values are unquoted. -/
def queryPairs (q : List Char) : List (List Char × List Char) :=
  (q.splitOn '&').filterMap fun part =>
    let k := part.takeWhile (fun c => c ≠ '=')
    match part.dropWhile (fun c => c ≠ '=') with
    | [] => none
    | _ :: v => if v = [] then none else some (unquotePlus k, unquotePlus v)

/-- `utils.get_seller_id_from_url`: the first value of the `seller` query
parameter, or `None` (modelled as `none`) when the parameter is absent. -/
def get_seller_id_from_url (url : String) : Option String :=
  match (queryPairs (urlQuery url.data)).filter (fun p => p.1 = "seller".data) with
  | [] => none
  | p :: _ => some ⟨p.2⟩

/-- Inner scan of `re.sub(r'\((.*?)\)', '', name)`: the remainder after the
first `')'` reachable without crossing a newline, if any. -/
def afterClose : List Char → Option (List Char)
  | [] => none
  | ')' :: r => some r
  | '\n' :: _ => none
  | _ :: r => afterClose r

/-- Fuel-driven model of `re.sub(r'\((.*?)\)', '', name)`: removes every
non-overlapping parenthetical group scanning left to right (fuel is the
input length, which always suffices). -/
def removeParensF : Nat → List Char → List Char
  | 0, l => l
  | _ + 1, [] => []
  | f + 1, '(' :: rest =>
      match afterClose rest with
      | some after => removeParensF f after
      | none => '(' :: removeParensF f rest
  | f + 1, c :: rest => c :: removeParensF f rest

/-- Model of `re.sub(r'\((.*?)\)', '', name)`. -/
def removeParens (l : List Char) : List Char := removeParensF l.length l

/-- Model of `re.sub(r'^\s*by\s*', '', name, flags=re.I)`: strips one
leading case-insensitive `by` together with surrounding whitespace; when no
`by` follows the leading whitespace the string is unchanged. -/
def subLeadingBy (l : List Char) : List Char :=
  match l.dropWhile pyIsSpace with
  | b :: y :: rest =>
      if b.toLower = 'b' && y.toLower = 'y' then rest.dropWhile pyIsSpace else l
  | _ => l

/-- `utils.clean_seller_name`: passes empty / sentinel input through; strips
parenthetical groups, a leading `by`, and truncates to 100 characters with a
trailing ellipsis. -/
def clean_seller_name (name : String) : String :=
  if name = "" ∨ name = "Not found" then name
  else
    let n1 := pyStrip (removeParens name.data)
    let n2 := pyStrip (subLeadingBy n1)
    if n2.length > 100 then (⟨n2.take 100⟩ : String) ++ "..." else ⟨n2⟩

/-! ## Models of `config.py` -/

/-- `config.MAX_IMAGES`. -/
def MAX_IMAGES : Nat := 10

/-- `config.BASE_URL`. -/
def BASE_URL : String := "https://www.amazon.com"

/-- `config.DEFAULT_EXCHANGE_RATE`. -/
def DEFAULT_EXCHANGE_RATE : ℚ := 359 / 100000

/-! ## Decimal parsing and fixed-point formatting (models of `float` and f-strings) -/

/-- Numeric value of a digit run. -/
def digitsVal (l : List Char) : Nat :=
  l.foldl (fun acc c => 10 * acc + (c.toNat - '0'.toNat)) 0

/-- Unsigned decimal-literal part of Python `float(s)`:
`123`, `123.`, `.5`, `1.5`; everything else fails. -/
def parsePyFloatCore (l : List Char) : Option ℚ :=
  let ip := l.takeWhile Char.isDigit
  match l.dropWhile Char.isDigit with
  | [] => if ip = [] then none else some (digitsVal ip)
  | '.' :: fr =>
      let fp := fr.takeWhile Char.isDigit
      if fr.dropWhile Char.isDigit ≠ [] then none
      else if ip = [] ∧ fp = [] then none
      else some ((digitsVal ip : ℚ) + (digitsVal fp : ℚ) / (10 ^ fp.length))
  | _ => none

/-- Model of Python `float(s)` restricted to finite decimal literals with an
optional sign (exponents, `inf`/`nan` and underscores are out of scope);
`none` models `float` raising `ValueError`. -/
def parsePyFloat (s : String) : Option ℚ :=
  match pyStrip s.data with
  | '+' :: rest => parsePyFloatCore rest
  | '-' :: rest => (parsePyFloatCore rest).map Neg.neg
  | l => parsePyFloatCore l

/-- Round `q * 10^d` to the nearest integer, ties to even (the rounding of
Python's fixed-point formatting, applied to the exact rational value). -/
def roundHalfEvenScaled (q : ℚ) (d : Nat) : ℤ :=
  let x := q * (10 ^ d : ℚ)
  if x - ⌊x⌋ < 1/2 then ⌊x⌋
  else if x - ⌊x⌋ > 1/2 then ⌊x⌋ + 1
  else if ⌊x⌋ % 2 = 0 then ⌊x⌋ else ⌊x⌋ + 1

/-- Left-pad a digit string with zeros to width `d`. -/
def padZeros (d : Nat) (s : String) : String :=
  (⟨List.replicate (d - s.length) '0'⟩ : String) ++ s

/-- Model of the f-string `f"{x:.df}"` on exact rationals. -/
def formatFixed (q : ℚ) (d : Nat) : String :=
  let n := roundHalfEvenScaled q d
  let m := n.natAbs
  (if n < 0 then "-" else "") ++ toString (m / 10 ^ d) ++ "." ++
    padZeros d (toString (m % 10 ^ d))

/-- Round the ratio `w / t` to tenths (nearest, ties to even), on naturals:
the integer nearest to `10 * w / t`. -/
def roundTenthsNat (w t : Nat) : Nat :=
  let q := 10 * w
  let dd := q / t
  let r := q % t
  if 2 * r < t then dd
  else if t < 2 * r then dd + 1
  else if dd % 2 = 0 then dd else dd + 1

/-- Model of the f-string `f"{w/t:.1f}"` for a non-negative exact ratio of
naturals (the form used for the seller star ratings). -/
def formatRatioTenths (w t : Nat) : String :=
  toString (roundTenthsNat w t / 10) ++ "." ++ toString (roundTenthsNat w t % 10)

/-- `scraper.AmazonScraper._handle_currency_conversion`: converts a PKR
amount to USD; `rate` is the result of `get_live_exchange_rate()` (a network
call modelled as a parameter; that helper never raises).  An unparseable amount
leaves both components unchanged (`except: pass`). -/
def handle_currency_conversion (price currency_symbol : String) (rate : ℚ) :
    String × String :=
  if price ≠ "Not found" ∧
      (currency_symbol = "PKR" ∨ currency_symbol = "₨" ∨ currency_symbol = "Rs") then
    match parsePyFloat price with
    | some v => (formatFixed (v * rate) 2, "$")
    | none => (price, currency_symbol)
  else (price, currency_symbol)

/-! ## Models of `models.py` -/

/-- `models.SellerInfo`: every string field is initialised to the sentinel
`"Not found"`, both flags to `False`.  `seller_id` is an `Option String`
because the code can assign it the result of `get_seller_id_from_url`,
which may be Python `None` (modelled as `none`). -/
structure SellerInfo where
  seller_name : String := "Not found"
  seller_store_url : String := "Not found"
  seller_rating : String := "Not found"
  seller_reviews : String := "Not found"
  seller_since : String := "Not found"
  positive_feedback : String := "Not found"
  shipped_by : String := "Not found"
  sold_by : String := "Not found"
  seller_description : String := "Not found"
  seller_id : Option String := some "Not found"
  is_amazon : Bool := false
  is_fulfilled_by_amazon : Bool := false
  lifetime_rating : String := "Not found"
  lifetime_reviews : String := "Not found"
deriving Repr, DecidableEq

/-- `SellerInfo.__init__` (all defaults). -/
def SellerInfo.init : SellerInfo := {}

/-- `models.Product` (the derived `image_count` is stored, as in
`Product.__init__`). -/
structure Product where
  title : String
  brand : String
  price : String
  rating : String
  reviews : String
  description : String
  images : List String
  image_count : Nat
  seller_details : SellerInfo
deriving Repr, DecidableEq

/-- `Product.display_seller_details`: the exact sequence of strings printed
(one list entry per `print` call). -/
def displaySellerLines (s : SellerInfo) : List String :=
  ["\n Seller Details:",
   "  Seller Name: " ++ s.seller_name,
   "  Seller Store URL: " ++ s.seller_store_url,
   "\n  12-Month Performance:"]
  ++ (if s.seller_rating ≠ "Not found"
      then ["    Seller Rating: " ++ s.seller_rating ++ "/5"] else [])
  ++ (if s.seller_reviews ≠ "Not found"
      then ["    Seller Reviews: " ++ s.seller_reviews] else [])
  ++ ["\n  Lifetime Performance:"]
  ++ (if s.lifetime_rating ≠ "Not found"
      then ["    Lifetime Rating: " ++ s.lifetime_rating ++ "/5"] else [])
  ++ (if s.lifetime_reviews ≠ "Not found"
      then ["    Lifetime Reviews: " ++ s.lifetime_reviews] else [])
  ++ (if s.seller_since ≠ "Not found"
      then ["\n  Seller Since: " ++ s.seller_since] else [])
  ++ (if s.positive_feedback ≠ "Not found"
      then ["  Positive Feedback: " ++ s.positive_feedback] else [])
  ++ (if s.shipped_by ≠ "Not found"
      then ["  Shipped By: " ++ s.shipped_by] else [])
  ++ (if s.sold_by ≠ "Not found"
      then ["  Sold By: " ++ s.sold_by] else [])
  ++ (if s.seller_description ≠ "Not found"
      then ["  Seller Description: " ++ s.seller_description.take 100 ++ "..."] else [])

/-- `Product.display`: product summary lines followed by the seller block. -/
def displayProductLines (p : Product) : List String :=
  ["\n Successfully scraped!",
   "Title: " ++ p.title.take 50 ++ "...",
   "Brand: " ++ p.brand,
   "Price: " ++ p.price,
   "Rating: " ++ p.rating,
   "Reviews: " ++ p.reviews,
   "Images: " ++ toString p.image_count ++ " found"]
  ++ displaySellerLines p.seller_details

/-! ## Image extraction (`AmazonScraper._extract_images`) -/

/-- One `img` element as seen by the image extractor: the four attribute
lookups the code performs.  `dynamicImageFirstKey` is the first key of the
JSON object in `data-a-dynamic-image` when the attribute is present, parses
as JSON and the object is non-empty (`none` models every failing case, all
of which leave `src` unset). -/
structure ImgElem where
  src : Option String := none
  dataSrc : Option String := none
  dataOldHires : Option String := none
  dynamicImageFirstKey : Option String := none
deriving Repr, DecidableEq

/-- Python `a or b` on optional strings (`None` and `""` are falsy). -/
def pyOrStr (a b : Option String) : Option String :=
  match a with
  | some s => if s = "" then b else some s
  | none => b

/-- The `src` resolution chain:
`img.get('src') or img.get('data-src') or img.get('data-old-hires')`,
falling back to the first key of the dynamic-image JSON when the result is
falsy. -/
def resolveSrc (e : ImgElem) : Option String :=
  let s0 := pyOrStr (pyOrStr e.src e.dataSrc) e.dataOldHires
  match s0 with
  | some s =>
      if s = "" then (match e.dynamicImageFirstKey with
        | some k => some k
        | none => some s)
      else some s
  | none => e.dynamicImageFirstKey

/-- `f"{src.split('._SL')[0]}._SL1500_"`. -/
def highResUrl (src : String) : String :=
  (⟨takeBeforeFirst "._SL".data src.data⟩ : String) ++ "._SL1500_"

/-- The per-URL rewrite step: URLs containing `"._SL"` are rewritten to the
high-resolution form, others kept as-is. -/
def processSrc (src : String) : String :=
  if containsSub "._SL".data src.data then highResUrl src else src

/-- The accumulation loop of `_extract_images`: a URL is appended (after
rewriting) when it is truthy, contains `"http"`, and is not already in the
accumulator; the membership test uses the un-rewritten URL, as in the code. -/
def collectImages : List (Option String) → List String → List String
  | [], acc => acc
  | s? :: rest, acc =>
      match s? with
      | none => collectImages rest acc
      | some s =>
          if s ≠ "" ∧ containsSub "http".data s.data = true ∧ s ∉ acc
          then collectImages rest (acc ++ [processSrc s])
          else collectImages rest acc

/-- Model of `list(dict.fromkeys(l))`: keep the first occurrence of each
element, preserving order (`seen` is the set of keys already inserted). -/
def pyDedupAux [DecidableEq α] (seen : List α) : List α → List α
  | [] => []
  | x :: xs =>
      if x ∈ seen then pyDedupAux seen xs else x :: pyDedupAux (x :: seen) xs

/-- Model of `list(dict.fromkeys(l))`. -/
def pyDedup [DecidableEq α] (l : List α) : List α := pyDedupAux [] l

/-- `AmazonScraper._extract_images`, over the concatenated element lists of
the five CSS selectors. -/
def extract_images (elems : List ImgElem) : List String :=
  pyDedup (collectImages (elems.map resolveSrc) [])

/-! ## Regex scan helpers for the seller stages -/

/-- Lowercase a character list (models `str.lower()` for the ASCII letters
used by the patterns). -/
def toLowerL (l : List Char) : List Char := l.map Char.toLower

/-- Lazy capture `(.+?)` followed by a stop pattern: the shortest non-empty
newline-free prefix after which `stop` matches. -/
def lazyCapture (stop : List Char → Bool) : List Char → Option (List Char)
  | [] => none
  | c :: cs =>
      if c = '\n' then none
      else if stop cs then some [c]
      else match lazyCapture stop cs with
        | some w => some (c :: w)
        | none => none

/-- Greedy capture `(.+)`: everything up to the end of the line, failing on
an empty capture. -/
def greedyLineCapture (t : List Char) : Option (List Char) :=
  let w := t.takeWhile (fun c => c ≠ '\n')
  if w = [] then none else some w

/-- Backtracking over a greedy `\s*`: `srev` is the reversed run of
whitespace already consumed; on failure of the capture attempt, give back
one whitespace character at a time (longest consumption is tried first, as
a greedy `\s*` does). -/
def backtrackWS (attempt : List Char → Option (List Char)) :
    List Char → List Char → Option (List Char)
  | [], t => attempt t
  | s :: srest, t =>
      match attempt t with
      | some w => some w
      | none => backtrackWS attempt srest (s :: t)

/-- Match `\s*` followed by a capture attempt, with backtracking. -/
def afterSpaces (attempt : List Char → Option (List Char)) (t : List Char) :
    Option (List Char) :=
  backtrackWS attempt (t.takeWhile pyIsSpace).reverse (t.dropWhile pyIsSpace)

/-- Leftmost match of `kw\s*<capture>`: try every start position in order;
`ci` selects case-insensitive matching of the literal `kw` (which is given
lowercased). -/
def scanKeyword (kw : List Char) (ci : Bool) (attempt : List Char → Option (List Char)) :
    List Char → Option (List Char)
  | [] => none
  | c :: cs =>
      match (if isPre kw (if ci then toLowerL (c :: cs) else c :: cs)
             then afterSpaces attempt ((c :: cs).drop kw.length)
             else none) with
      | some w => some w
      | none => scanKeyword kw ci attempt cs

/-- The stop pattern `(?:\s*and|$)` of the buybox regexes (`$` also matches
just before a trailing newline; `and` is matched case-insensitively). -/
def stopAndOrEnd (rest : List Char) : Bool :=
  isPre "and".data (toLowerL (rest.dropWhile pyIsSpace)) || rest = [] || rest = ['\n']

/-- Leftmost match of `(\d+\.?\d*)` at the given position (which must start
with a digit), completed by `\s*out of`; models one backtracking attempt of
the feedback rating regex. -/
def ratingAtPos (l : List Char) : Option (List Char) :=
  match l with
  | [] => none
  | c :: cs =>
      if c.isDigit then
        let d1 := c :: cs.takeWhile Char.isDigit
        match cs.dropWhile Char.isDigit with
        | '.' :: r2 =>
            if isPre "out of".data ((r2.dropWhile Char.isDigit).dropWhile pyIsSpace)
            then some (d1 ++ '.' :: r2.takeWhile Char.isDigit)
            else none
        | r1 =>
            if isPre "out of".data (r1.dropWhile pyIsSpace) then some d1 else none
      else none

/-- Leftmost match of `(\d+\.?\d*)\s*out of` (the captured number). -/
def ratingScan : List Char → Option (List Char)
  | [] => none
  | c :: cs =>
      match ratingAtPos (c :: cs) with
      | some g => some g
      | none => ratingScan cs

/-- Leftmost match of `(\d+[\d,]*)` (the captured digit/comma run). -/
def reviewsScan : List Char → Option (List Char)
  | [] => none
  | c :: cs =>
      if c.isDigit then some (c :: cs.takeWhile (fun x => x.isDigit || x = ','))
      else reviewsScan cs

/-- Leftmost match of `(\d+\.?\d*)` (the captured number), as used by
`_extract_rating`. -/
def numScan : List Char → Option (List Char)
  | [] => none
  | c :: cs =>
      if c.isDigit then
        let d1 := c :: cs.takeWhile Char.isDigit
        match cs.dropWhile Char.isDigit with
        | '.' :: r2 => some (d1 ++ '.' :: r2.takeWhile Char.isDigit)
        | _ => some d1
      else numScan cs

/-- Leftmost match of `(\d+%)` (the captured percentage). -/
def percentScan : List Char → Option (List Char)
  | [] => none
  | c :: cs =>
      if c.isDigit then
        match cs.dropWhile Char.isDigit with
        | '%' :: _ => some (c :: cs.takeWhile Char.isDigit ++ ['%'])
        | _ => percentScan cs
      else percentScan cs

/-- Fuel-driven model of `str.replace(pat, rep)` (all non-overlapping
occurrences, left to right; `pat` is non-empty at every use site). -/
def replaceSubF (pat rep : List Char) : Nat → List Char → List Char
  | 0, l => l
  | _ + 1, [] => []
  | f + 1, c :: cs =>
      if isPre pat (c :: cs) then rep ++ replaceSubF pat rep f ((c :: cs).drop pat.length)
      else c :: replaceSubF pat rep f cs

/-- Model of `str.replace(pat, rep)`. -/
def replaceSub (pat rep l : List Char) : List Char := replaceSubF pat rep l.length l

/-! ## Models of the seller-extraction stages of `scraper.py` -/

/-- An `<a>` element as used by the seller stages: raw text (`get_text()`),
and the `href` attribute when present. -/
structure LinkElem where
  text : String
  href : Option String := none
deriving Repr, DecidableEq

/-- Model of `urllib.parse.urljoin(base, url)` for the configured base URL
(an authority-only base): absolute URLs pass through, other hrefs are
resolved against the site root. -/
def urljoin (base url : String) : String :=
  if url = "" then base
  else if containsSub "://".data url.data then url
  else if url.data.head? = some '/' then base ++ url
  else base ++ "/" ++ url

/-- Page-wide signals (`_extract_seller_details` stage A): the
fulfilled-by-Amazon text search and the badge + `Amazon.com` span check. -/
def sellerStageA (hasFulfilledText hasAcBadge hasAmazonComSpan : Bool)
    (info : SellerInfo) : SellerInfo :=
  let info := if hasFulfilledText then { info with is_fulfilled_by_amazon := true } else info
  if hasAcBadge && hasAmazonComSpan then
    { info with
      seller_name := "Amazon.com", sold_by := "Amazon.com",
      shipped_by := "Amazon.com", is_amazon := true }
  else info

/-- `AmazonScraper._extract_seller_from_buybox`: `buyboxText` is
`get_text(' ', strip=True)` of the first existing of the `merchant-info`,
`sellerProfileTriggerId` and `availability` containers. -/
def extract_seller_from_buybox (buyboxText : Option String) (info : SellerInfo) :
    SellerInfo :=
  match buyboxText with
  | none => info
  | some txt =>
      let info :=
        match scanKeyword "sold by".data true (lazyCapture stopAndOrEnd) txt.data with
        | some g =>
            let nm := pyStrip (removeParens (pyStrip g))
            { info with
              sold_by := ⟨nm⟩, seller_name := ⟨nm⟩,
              is_amazon := containsSub "amazon".data (toLowerL nm) }
        | none => info
      match scanKeyword "shipped by".data true (lazyCapture stopAndOrEnd) txt.data with
      | some g => { info with shipped_by := ⟨pyStrip g⟩ }
      | none => info

/-- The seller-profile-link block of `_extract_seller_from_links`: fallback
name from the link text (only while the name is unset), store URL and
seller id from the `href`. -/
def sellerLinkPart (sellerLink : Option LinkElem) (info : SellerInfo) : SellerInfo :=
  match sellerLink with
  | none => info
  | some lnk =>
      let st := pyStrip lnk.text.data
      let info :=
        if st ≠ [] then
          let nm : String := ⟨pyStrip (subLeadingBy st)⟩
          if info.seller_name = "Not found" then
            { info with seller_name := nm, sold_by := nm }
          else info
        else info
      match lnk.href with
      | some h =>
          let u := urljoin BASE_URL h
          { info with seller_store_url := u, seller_id := get_seller_id_from_url u }
      | none => info

/-- The byline/store-link block of `_extract_seller_from_links`: a
`Visit the ... Store` fallback name, and the `href` as a fallback store
URL. -/
def bylinePart (bylineLink : Option LinkElem) (info : SellerInfo) : SellerInfo :=
  match bylineLink with
  | none => info
  | some lnk =>
      let storeText : String := ⟨pyStrip lnk.text.data⟩
      let info :=
        if strContains storeText "Visit the" && strContains storeText "Store" then
          let store_name : String :=
            ⟨pyStrip (replaceSub "Store".data [] (replaceSub "Visit the".data [] storeText.data))⟩
          if store_name ≠ "" ∧ info.seller_name = "Not found" then
            { info with seller_name := store_name }
          else info
        else info
      match lnk.href with
      | some h =>
          if info.seller_store_url = "Not found" then
            { info with seller_store_url := urljoin BASE_URL h }
          else info
      | none => info

/-- `AmazonScraper._extract_seller_from_links`: the seller profile link
block followed by the byline/store link block, in source order. -/
def extract_seller_from_links (sellerLink bylineLink : Option LinkElem)
    (info : SellerInfo) : SellerInfo :=
  bylinePart bylineLink (sellerLinkPart sellerLink info)

/-- `AmazonScraper._extract_seller_feedback`: `feedbackText` is
`get_text(strip=True)` of the first link whose `href` contains `feedback`. -/
def extract_seller_feedback (feedbackText : Option String) (info : SellerInfo) :
    SellerInfo :=
  match feedbackText with
  | none => info
  | some txt =>
      let info :=
        match ratingScan txt.data with
        | some g => { info with seller_rating := ⟨g⟩ }
        | none => info
      match reviewsScan txt.data with
      | some g => { info with seller_reviews := ⟨g⟩ }
      | none => info

/-- The detail-bullets loop of `_extract_seller_details`: each `li` text
containing `Sold by:` overwrites `sold_by`; `seller_name` is back-filled
only while still at the sentinel. -/
def detailBulletsStep (bullets : List String) (info : SellerInfo) : SellerInfo :=
  bullets.foldl (fun info text =>
    if strContains text "Sold by:" then
      match scanKeyword "Sold by:".data false greedyLineCapture text.data with
      | some g =>
          let sb : String := ⟨pyStrip g⟩
          let info := { info with sold_by := sb }
          if info.seller_name = "Not found" then { info with seller_name := sb } else info
      | none => info
    else info) info

/-! ## Seller-page processing (`AmazonScraper._scrape_seller_page`) -/

/-- One parsed `a-state` JSON fragment containing rating data: the keys the
code reads, each `Option` because the code guards with `'key' in data` and
uses `.get(key, 0)`. -/
structure RatingFragment where
  ratingCount : Option Nat := none
  star5 : Option Nat := none
  star4 : Option Nat := none
  star3 : Option Nat := none
  star2 : Option Nat := none
  star1 : Option Nat := none
deriving Repr, DecidableEq

/-- `data.get('ratingCount', 0)`. -/
def RatingFragment.rc (d : RatingFragment) : Nat := d.ratingCount.getD 0

/-- The 12-month record: the first fragment whose `ratingCount` lies in
`[400, 500]`. -/
def selectTwelveMonth (frags : List RatingFragment) : Option RatingFragment :=
  frags.find? (fun d => 400 ≤ d.rc && d.rc ≤ 500)

/-- Model of Python `max(xs, key=...)`: the first element attaining the
maximum (iterating left to right, replacing only on strictly greater). -/
def pyMaxByRc (x : RatingFragment) (xs : List RatingFragment) : RatingFragment :=
  xs.foldl (fun best d => if d.rc > best.rc then d else best) x

/-- The lifetime record: the fragment of maximum `ratingCount`, accepted
only when that maximum exceeds 500 (and only when the list is non-empty). -/
def selectLifetime (frags : List RatingFragment) : Option RatingFragment :=
  match frags with
  | [] => none
  | x :: xs =>
      let m := pyMaxByRc x xs
      if m.rc > 500 then some m else none

/-- `star5*5 + star4*4 + star3*3 + star2*2 + star1*1` with `.get(_, 0)`. -/
def weightedSum (d : RatingFragment) : Nat :=
  d.star5.getD 0 * 5 + d.star4.getD 0 * 4 + d.star3.getD 0 * 3 +
    d.star2.getD 0 * 2 + d.star1.getD 0 * 1

/-- `star5 + star4 + star3 + star2 + star1` with `.get(_, 0)`. -/
def totalPercent (d : RatingFragment) : Nat :=
  d.star5.getD 0 + d.star4.getD 0 + d.star3.getD 0 + d.star2.getD 0 + d.star1.getD 0

/-- Applying the 12-month fragment: review count from `ratingCount` when
present; weighted average rating formatted to one decimal when `star5` is
present and the percentage total is positive. -/
def applyTwelveMonth (d : RatingFragment) (info : SellerInfo) : SellerInfo :=
  let info :=
    match d.ratingCount with
    | some rc => { info with seller_reviews := toString rc }
    | none => info
  if d.star5.isSome then
    if totalPercent d > 0 then
      { info with seller_rating := formatRatioTenths (weightedSum d) (totalPercent d) }
    else info
  else info

/-- Applying the lifetime fragment (same computation, lifetime fields). -/
def applyLifetime (d : RatingFragment) (info : SellerInfo) : SellerInfo :=
  let info :=
    match d.ratingCount with
    | some rc => { info with lifetime_reviews := toString rc }
    | none => info
  if d.star5.isSome then
    if totalPercent d > 0 then
      { info with lifetime_rating := formatRatioTenths (weightedSum d) (totalPercent d) }
    else info
  else info

/-- The `rating-year` DOM override: a non-empty rating text always
overwrites the 12-month rating. -/
def applyRatingYear (t? : Option String) (info : SellerInfo) : SellerInfo :=
  match t? with
  | some t => if t ≠ "" then { info with seller_rating := t } else info
  | none => info

/-- The `effective-timeperiod` DOM override: runs only when the current
12-month rating is the literal `"4.9"` or the sentinel; a non-empty rating
text then overwrites it. -/
def applyEffectiveYear (t? : Option String) (info : SellerInfo) : SellerInfo :=
  if info.seller_rating = "4.9" ∨ info.seller_rating = "Not found" then
    match t? with
    | some t => if t ≠ "" then { info with seller_rating := t } else info
    | none => info
  else info

/-- The `rating-365d-num` count fill: only while the 12-month review count
is still the sentinel. -/
def applyReviewsFill (t? : Option String) (info : SellerInfo) : SellerInfo :=
  if info.seller_reviews = "Not found" then
    match t? with
    | some t => { info with seller_reviews := t }
    | none => info
  else info

/-- Positive feedback: the `percentFiveStar` element if present; otherwise
a page-wide regex scan, but only when the current value is falsy (the empty
string) — not when it is the (truthy) sentinel. -/
def applyPositiveFeedback (pfs? regexText? : Option String) (info : SellerInfo) :
    SellerInfo :=
  match pfs? with
  | some t => { info with positive_feedback := t }
  | none =>
      if info.positive_feedback = "" then
        match regexText? with
        | some txt =>
            match percentScan txt.data with
            | some p => { info with positive_feedback := ⟨p⟩ }
            | none => info
        | none => info
      else info

/-- The parsed seller page as seen by `_scrape_seller_page`: the rating
fragments (scripts of type `a-state` containing `ratingCount` and `star5`
that parse as JSON) and the texts of the individual override elements
(each `none` when the element — or its required nested element — is
absent). -/
structure SellerPageDoc where
  fragments : List RatingFragment := []
  ratingYearText : Option String := none
  effectiveYearText : Option String := none
  rating365Count : Option String := none
  percentFiveStar : Option String := none
  positiveRegexText : Option String := none
deriving Repr, DecidableEq

/-- `AmazonScraper._scrape_seller_page`, after a successful fetch: fragment
selection, weighted ratings, then the three DOM overrides and the
positive-feedback extraction, in source order. -/
def scrape_seller_page (page : SellerPageDoc) (info : SellerInfo) : SellerInfo :=
  let info :=
    match selectTwelveMonth page.fragments with
    | some d => applyTwelveMonth d info
    | none => info
  let info :=
    match selectLifetime page.fragments with
    | some d => applyLifetime d info
    | none => info
  let info := applyRatingYear page.ratingYearText info
  let info := applyEffectiveYear page.effectiveYearText info
  let info := applyReviewsFill page.rating365Count info
  applyPositiveFeedback page.percentFiveStar page.positiveRegexText info

/-! ## The parsed product page and the remaining extractors -/

/-- The parsed product page: one field per BeautifulSoup query performed by
the extractors.  Text fields hold `get_text()` results (stripped already
when the code passes `strip=True`); `Bool` fields hold element-existence
results; `none`/`[]` model an absent element. -/
structure Doc where
  titleText : Option String := none
  bylineLink : Option LinkElem := none
  priceOffscreenText : Option String := none
  mainPriceBlock : Bool := false
  mainPriceSymbol : Option String := none
  mainPriceWhole : Option String := none
  mainPriceFraction : Option String := none
  ratingText : Option String := none
  reviewsText : Option String := none
  imageElems : List ImgElem := []
  descriptionText : Option String := none
  hasFulfilledText : Bool := false
  hasAcBadge : Bool := false
  hasAmazonComSpan : Bool := false
  buyboxText : Option String := none
  sellerLink : Option LinkElem := none
  feedbackText : Option String := none
  detailBullets : List String := []
deriving Repr, DecidableEq

/-- `AmazonScraper._extract_title`. -/
def extract_title (doc : Doc) : String :=
  match doc.titleText with
  | some t => clean_text t
  | none => "Not found"

/-- `AmazonScraper._extract_brand`. -/
def extract_brand (doc : Doc) : String :=
  match doc.bylineLink with
  | some lnk => clean_text lnk.text
  | none => "Not found"

/-- The composite whole+fraction fallback of `_extract_price`. -/
def mainPriceFallback (doc : Doc) (rate : ℚ) : String × String :=
  if doc.mainPriceBlock then
    let currency_symbol : String :=
      match doc.mainPriceSymbol with
      | some t => t
      | none => "$"
    match doc.mainPriceWhole, doc.mainPriceFraction with
    | some w, some f =>
        let w1 := w.data.filter (fun c => c ≠ ',')
        let w2 := if '.' ∈ w1 then w1.filter (fun c => c ≠ '.') else w1
        handle_currency_conversion ((⟨w2⟩ : String) ++ "." ++ f) currency_symbol rate
    | _, _ => ("Not found", "$")
  else ("Not found", "$")

/-- `AmazonScraper._extract_price`: offscreen hidden price first, falling
through to the composite price block; returns `(price, currency_symbol)`. -/
def extract_price (doc : Doc) (rate : ℚ) : String × String :=
  match doc.priceOffscreenText with
  | some ptext =>
      let sp := extract_currency ptext
      if sp.2 ≠ "Not found" then handle_currency_conversion sp.2 sp.1 rate
      else mainPriceFallback doc rate
  | none => mainPriceFallback doc rate

/-- `AmazonScraper._extract_rating` (the regex runs on the sentinel string
itself when the element is absent, as in the code). -/
def extract_rating (doc : Doc) : String :=
  let rating_text : String :=
    match doc.ratingText with
    | some t => t
    | none => "Not found"
  match numScan rating_text.data with
  | some g => ⟨g⟩
  | none => "Not found"

/-- `AmazonScraper._extract_reviews`. -/
def extract_reviews (doc : Doc) : String :=
  match doc.reviewsText with
  | some t => clean_text t
  | none => "Not found"

/-- `AmazonScraper._extract_description` (the `[:500]` slice applies to the
sentinel too). -/
def extract_description (doc : Doc) : String :=
  (match doc.descriptionText with
   | some t => t
   | none => "Not found").take 500

/-- `AmazonScraper._extract_seller_details`: the full seller pipeline in
source order (stage A signals, buybox, links, feedback, detail bullets,
conditional seller-page fetch, name cleanup).  `sellerPage` is the result
of fetching the resolved store URL; `none` models a failed fetch or a
non-200 response, which leaves the record untouched. -/
def extract_seller_details (doc : Doc) (sellerPage : Option SellerPageDoc) :
    SellerInfo :=
  let info := SellerInfo.init
  let info := sellerStageA doc.hasFulfilledText doc.hasAcBadge doc.hasAmazonComSpan info
  let info := extract_seller_from_buybox doc.buyboxText info
  let info := extract_seller_from_links doc.sellerLink doc.bylineLink info
  let info := extract_seller_feedback doc.feedbackText info
  let info := detailBulletsStep doc.detailBullets info
  let info :=
    if info.seller_store_url ≠ "Not found" ∧ info.is_amazon = false then
      match sellerPage with
      | some page => scrape_seller_page page info
      | none => info
    else info
  { info with
    seller_name := clean_seller_name info.seller_name,
    sold_by := clean_seller_name info.sold_by }

/-- `AmazonScraper.scrape` after the HTTP fetch: a non-200 status yields
`None`; otherwise the extractors run and the `Product` is assembled with
the formatted price/rating fields and the image list truncated to
`MAX_IMAGES`. -/
def scrape (status : Nat) (doc : Doc) (sellerPage : Option SellerPageDoc)
    (rate : ℚ) : Option Product :=
  if status ≠ 200 then none
  else
    let pc := extract_price doc rate
    let rating := extract_rating doc
    let images := extract_images doc.imageElems
    some
      { title := extract_title doc
        brand := extract_brand doc
        price := if pc.1 ≠ "Not found" then pc.2 ++ pc.1 else "Not found"
        rating := if rating ≠ "Not found" then rating ++ "/5" else "Not found"
        reviews := extract_reviews doc
        description := extract_description doc
        images := images.take MAX_IMAGES
        image_count := (images.take MAX_IMAGES).length
        seller_details := extract_seller_details doc sellerPage }

/-! ## Properties of the dedup used by the image extractor -/

theorem pyDedupAux_mem [DecidableEq α] (l : List α) :
    ∀ (seen : List α) (x : α), x ∈ pyDedupAux seen l ↔ x ∈ l ∧ x ∉ seen := by
  induction l with
  | nil => intro seen x; simp [pyDedupAux]
  | cons y ys ih =>
      intro seen x
      rw [pyDedupAux]
      by_cases hy : y ∈ seen
      · rw [if_pos hy, ih seen x]
        constructor
        · rintro ⟨h1, h2⟩; exact ⟨by simp [h1], h2⟩
        · rintro ⟨h1, h2⟩
          rcases List.mem_cons.mp h1 with h3 | h3
          · exact absurd (h3 ▸ hy) h2
          · exact ⟨h3, h2⟩
      · rw [if_neg hy]
        simp only [List.mem_cons, ih (y :: seen) x]
        by_cases hxy : x = y
        · subst hxy; simp [hy]
        · simp [hxy]

theorem pyDedupAux_nodup [DecidableEq α] (l : List α) :
    ∀ seen : List α, (pyDedupAux seen l).Nodup := by
  induction l with
  | nil => intro seen; simp [pyDedupAux]
  | cons y ys ih =>
      intro seen
      rw [pyDedupAux]
      by_cases hy : y ∈ seen
      · rw [if_pos hy]; exact ih seen
      · rw [if_neg hy]
        refine List.nodup_cons.mpr ⟨?_, ih (y :: seen)⟩
        intro hmem
        exact ((pyDedupAux_mem ys (y :: seen) y).mp hmem).2 (by simp)

theorem pyDedupAux_sublist [DecidableEq α] (l : List α) :
    ∀ seen : List α, (pyDedupAux seen l).Sublist l := by
  induction l with
  | nil => intro seen; simp [pyDedupAux]
  | cons y ys ih =>
      intro seen
      rw [pyDedupAux]
      by_cases hy : y ∈ seen
      · rw [if_pos hy]; exact (ih seen).cons y
      · rw [if_neg hy]; exact (ih (y :: seen)).cons₂ y

theorem pyDedupAux_pairwise_indexOf [DecidableEq α] (l : List α) :
    ∀ seen : List α,
      (pyDedupAux seen l).Pairwise (fun a b => l.indexOf a < l.indexOf b) := by
  induction l with
  | nil => intro seen; simp [pyDedupAux]
  | cons y ys ih =>
      intro seen
      rw [pyDedupAux]
      by_cases hy : y ∈ seen
      · rw [if_pos hy]
        refine (ih seen).imp_of_mem ?_
        intro a b ha hb hab
        have hane : a ≠ y := fun he =>
          ((pyDedupAux_mem ys seen a).mp ha).2 (he ▸ hy)
        have hbne : b ≠ y := fun he =>
          ((pyDedupAux_mem ys seen b).mp hb).2 (he ▸ hy)
        rw [List.indexOf_cons_ne ys hane.symm, List.indexOf_cons_ne ys hbne.symm]
        omega
      · rw [if_neg hy]
        refine List.pairwise_cons.mpr ⟨?_, ?_⟩
        · intro b hb
          have hbmem := (pyDedupAux_mem ys (y :: seen) b).mp hb
          have hbne : b ≠ y := fun he => hbmem.2 (by simp [he])
          rw [List.indexOf_cons_self, List.indexOf_cons_ne ys hbne.symm]
          omega
        · refine (ih (y :: seen)).imp_of_mem ?_
          intro a b ha hb hab
          have hane : a ≠ y := fun he =>
            ((pyDedupAux_mem ys (y :: seen) a).mp ha).2 (by simp [he])
          have hbne : b ≠ y := fun he =>
            ((pyDedupAux_mem ys (y :: seen) b).mp hb).2 (by simp [he])
          rw [List.indexOf_cons_ne ys hane.symm, List.indexOf_cons_ne ys hbne.symm]
          omega

theorem containsSub_iff_idxOfSub (pat l : List Char) :
    containsSub pat l = true ↔ ∃ i, idxOfSub pat l = some i := by
  induction l with
  | nil =>
      rw [containsSub, idxOfSub]
      by_cases h : isPre pat [] = true <;> simp [h]
  | cons c cs ih =>
      rw [containsSub, idxOfSub]
      by_cases h : isPre pat (c :: cs) = true
      · simp [h]
      · have hb : isPre pat (c :: cs) = false := by simpa using h
        rw [if_neg h]
        simp only [hb, Bool.false_or, ih]
        constructor
        · rintro ⟨i, hi⟩; exact ⟨i + 1, by rw [hi]; rfl⟩
        · rintro ⟨i, hi⟩
          cases hj : idxOfSub pat cs with
          | none => rw [hj] at hi; cases hi
          | some j => exact ⟨j, rfl⟩

/-- **C7** (confirmed): the extracted image list has no duplicates, contains
exactly the URLs accepted by the collection loop, is a subsequence of that
accepted stream, and lists them in first-occurrence order; two distinct
source URLs rewriting to the same high-resolution URL yield a single entry;
and the image list stored in the `Product` has length at most
`MAX_IMAGES = 10`. -/
theorem C7_image_list_dedup :
    (∀ elems : List ImgElem,
      (extract_images elems).Nodup ∧
      (∀ u, u ∈ extract_images elems ↔ u ∈ collectImages (elems.map resolveSrc) []) ∧
      (extract_images elems).Sublist (collectImages (elems.map resolveSrc) []) ∧
      (extract_images elems).Pairwise (fun a b =>
        (collectImages (elems.map resolveSrc) []).indexOf a
          < (collectImages (elems.map resolveSrc) []).indexOf b)) ∧
    extract_images [{ src := some "https://x/i._SL160_.jpg" },
        { src := some "https://x/i._SL320_.jpg" }] = ["https://x/i._SL1500_"] ∧
    ∀ (status : Nat) (doc : Doc) (sp : Option SellerPageDoc) (rate : ℚ) (p : Product),
      scrape status doc sp rate = some p → p.images.length ≤ MAX_IMAGES := by
  refine ⟨fun elems => ?_, by decide, fun status doc sp rate p h => ?_⟩
  · refine ⟨pyDedupAux_nodup _ [], fun u => ?_, pyDedupAux_sublist _ [],
      pyDedupAux_pairwise_indexOf _ []⟩
    rw [extract_images, pyDedup, pyDedupAux_mem]
    simp
  · rw [scrape] at h
    split at h
    · cases h
    · cases h
      simp [List.length_take]

/-- Closed witness for the hypotheses of `C7_image_list_dedup`: a concrete
successful scrape whose stored image list respects the bound. -/
theorem C7_image_list_dedup_witness :
    ∃ p, scrape 200 {} none 0 = some p ∧ p.images.length ≤ MAX_IMAGES :=
  ⟨_, rfl, C7_image_list_dedup.2.2 200 {} none 0 _ rfl⟩

/-- **C2** (corrected): for every accepted URL containing `"._SL"`, the
extractor rewrites it to the prefix before the *first* occurrence of the
marker followed by the fixed suffix `"._SL1500_"` — the trailing content,
including the original file extension, is discarded, so the result does not
end in `".jpg"`. -/
theorem C2_image_rewrite_amended :
    ∀ src : String, containsSub "._SL".data src.data = true →
      ∃ i, idxOfSub "._SL".data src.data = some i ∧
        processSrc src = (⟨src.data.take i⟩ : String) ++ "._SL1500_" ∧
        isPre "._SL".data (src.data.drop i) = true ∧
        ∀ j < i, isPre "._SL".data (src.data.drop j) = false := by
  intro src hsub
  obtain ⟨i, hi⟩ := (containsSub_iff_idxOfSub _ _).mp hsub
  obtain ⟨h1, h2⟩ := idxOfSub_spec _ _ i hi
  refine ⟨i, hi, ?_, h1, h2⟩
  rw [processSrc, if_pos hsub, highResUrl, takeBeforeFirst, hi]

/-- Closed witness for `C2_image_rewrite_amended` at the spec's example
URL. -/
theorem C2_image_rewrite_amended_witness :
    containsSub "._SL".data "https://a/image._SL160_.jpg".data = true ∧
    processSrc "https://a/image._SL160_.jpg" = "https://a/image._SL1500_" := by
  constructor
  · decide
  · obtain ⟨i, hi, hp, -, -⟩ := C2_image_rewrite_amended "https://a/image._SL160_.jpg" (by decide)
    rw [hp]
    have : i = 15 := by
      have := hi
      rw [show idxOfSub "._SL".data "https://a/image._SL160_.jpg".data = some 15 by decide]
        at this
      cases this
      rfl
    subst this
    decide

/-- **C2** counterexample: the claimed rewrite of the spec's example URL is
`".../image._SL1500_.jpg"`, but the extractor produces `".../image._SL1500_"`
(no `".jpg"`): the trailing suffix, extension included, is discarded and
only `"._SL1500_"` is appended. -/
theorem C2_counterexample :
    extract_images [{ src := some "https://a/image._SL160_.jpg" }]
        = ["https://a/image._SL1500_"] ∧
    extract_images [{ src := some "https://a/image._SL160_.jpg" }]
        ≠ ["https://a/image._SL1500_.jpg"] := by
  exact ⟨by decide, by decide⟩

/-! ## Fragment selection on the seller page (C3) -/

theorem find?_first_decomp {α : Type} {p : α → Bool} (l : List α) (d : α) :
    l.find? p = some d →
      p d = true ∧ ∃ l1 l2, l = l1 ++ d :: l2 ∧ ∀ x ∈ l1, p x = false := by
  induction l with
  | nil => intro h; cases h
  | cons a as ih =>
      intro h
      rw [List.find?_cons] at h
      cases hpa : p a with
      | true =>
          rw [hpa] at h
          cases h
          exact ⟨hpa, [], as, rfl, by simp⟩
      | false =>
          rw [hpa] at h
          obtain ⟨h1, l1, l2, h2, h3⟩ := ih h
          refine ⟨h1, a :: l1, l2, by simp [h2], ?_⟩
          intro x hx
          rcases List.mem_cons.mp hx with h4 | h4
          · exact h4 ▸ hpa
          · exact h3 x h4

theorem pyMaxByRc_spec (xs : List RatingFragment) :
    ∀ x, pyMaxByRc x xs ∈ x :: xs ∧
      ∀ y ∈ x :: xs, y.rc ≤ (pyMaxByRc x xs).rc := by
  induction xs with
  | nil =>
      intro x
      refine ⟨by simp [pyMaxByRc], ?_⟩
      intro y hy
      rw [show pyMaxByRc x [] = x from rfl]
      rcases List.mem_cons.mp hy with h | h
      · exact h ▸ le_refl _
      · cases h
  | cons d ds ih =>
      intro x
      have hfold : pyMaxByRc x (d :: ds)
          = pyMaxByRc (if d.rc > x.rc then d else x) ds := by
        rw [pyMaxByRc, pyMaxByRc, List.foldl_cons]
      obtain ⟨hmem, hbound⟩ := ih (if d.rc > x.rc then d else x)
      constructor
      · rw [hfold]
        rcases List.mem_cons.mp hmem with h | h
        · rw [h]
          split
          · simp
          · simp
        · simp [List.mem_cons.mpr (Or.inr (List.mem_cons.mpr (Or.inr h)))]
      · intro y hy
        rw [hfold]
        have hx' : (if d.rc > x.rc then d else x).rc
            ≤ (pyMaxByRc (if d.rc > x.rc then d else x) ds).rc :=
          hbound _ (by simp)
        rcases List.mem_cons.mp hy with h | h
        · subst h
          have : y.rc ≤ (if d.rc > y.rc then d else y).rc := by
            split <;> omega
          omega
        · rcases List.mem_cons.mp h with h2 | h2
          · subst h2
            have : y.rc ≤ (if y.rc > x.rc then y else x).rc := by
              split <;> omega
            omega
          · exact hbound y (by simp [h2])

/-- **C3** (confirmed): the 12-month record is the first fragment whose
`ratingCount` lies in the inclusive range `[400, 500]`; the lifetime record
is the fragment of maximum `ratingCount`, accepted only when that maximum
exceeds 500; in particular with counts 120, 450, 900 the 450-count fragment
is chosen as 12-month and the 900-count fragment as lifetime. -/
theorem C3_fragment_selection :
    (∀ (frags : List RatingFragment) (d : RatingFragment),
      selectTwelveMonth frags = some d →
        400 ≤ d.rc ∧ d.rc ≤ 500 ∧
        ∃ l1 l2, frags = l1 ++ d :: l2 ∧ ∀ x ∈ l1, ¬(400 ≤ x.rc ∧ x.rc ≤ 500)) ∧
    (∀ (frags : List RatingFragment) (d : RatingFragment),
      selectLifetime frags = some d →
        d ∈ frags ∧ 500 < d.rc ∧ ∀ x ∈ frags, x.rc ≤ d.rc) ∧
    (∀ (frags : List RatingFragment) (x : RatingFragment),
      x ∈ frags → 500 < x.rc → (selectLifetime frags).isSome = true) ∧
    selectTwelveMonth [{ ratingCount := some 120 }, { ratingCount := some 450 },
        { ratingCount := some 900 }] = some { ratingCount := some 450 } ∧
    selectLifetime [{ ratingCount := some 120 }, { ratingCount := some 450 },
        { ratingCount := some 900 }] = some { ratingCount := some 900 } := by
  refine ⟨?_, ?_, ?_, by decide, by decide⟩
  · intro frags d h
    obtain ⟨h1, l1, l2, h2, h3⟩ := find?_first_decomp frags d h
    simp only [Bool.and_eq_true, decide_eq_true_eq] at h1
    refine ⟨h1.1, h1.2, l1, l2, h2, ?_⟩
    intro x hx hcontra
    have := h3 x hx
    simp at this
    omega
  · intro frags d h
    cases frags with
    | nil => cases h
    | cons x xs =>
        rw [selectLifetime] at h
        split at h
        · rename_i hgt
          cases h
          obtain ⟨hmem, hbound⟩ := pyMaxByRc_spec xs x
          exact ⟨hmem, by omega, hbound⟩
        · cases h
  · intro frags x hx hgt
    cases frags with
    | nil => cases hx
    | cons y ys =>
        rw [selectLifetime]
        obtain ⟨hmem, hbound⟩ := pyMaxByRc_spec ys y
        have : 500 < (pyMaxByRc y ys).rc := lt_of_lt_of_le hgt (hbound x hx)
        rw [if_pos this]
        rfl

/-! ## The weighted seller rating (C6) -/

/-- The star distribution of the spec's worked example. -/
def starsExample : RatingFragment :=
  { ratingCount := some 450, star5 := some 80, star4 := some 10, star3 := some 5,
    star2 := some 3, star1 := some 2 }

theorem ratioTenths_bound_down (w t dd r : Nat) (ht : 0 < t)
    (hq : 10 * w = t * dd + r) (h2 : 2 * r ≤ t) :
    |(dd : ℚ) / 10 - (w : ℚ) / (t : ℚ)| ≤ 1 / 20 := by
  have htQ : (0 : ℚ) < t := by exact_mod_cast ht
  have hcast : (10 : ℚ) * w = t * dd + r := by exact_mod_cast hq
  have hdiff : (dd : ℚ) / 10 - (w : ℚ) / t = -(r : ℚ) / (10 * t) := by
    rw [div_sub_div _ _ (by norm_num) (ne_of_gt htQ)]
    rw [div_eq_div_iff (by positivity) (by positivity)]
    ring_nf
    nlinarith [hcast]
  rw [hdiff, abs_div, abs_neg, abs_of_nonneg (by positivity : (0:ℚ) ≤ (r:ℚ)),
    abs_of_pos (by positivity : (0:ℚ) < 10 * (t:ℚ))]
  rw [div_le_div_iff₀ (by positivity) (by norm_num)]
  have h2Q : 2 * (r : ℚ) ≤ t := by exact_mod_cast h2
  linarith

theorem ratioTenths_bound_up (w t dd r : Nat) (ht : 0 < t)
    (hq : 10 * w = t * dd + r) (hrt : r < t) (h2 : t ≤ 2 * r) :
    |((dd : ℚ) + 1) / 10 - (w : ℚ) / (t : ℚ)| ≤ 1 / 20 := by
  have htQ : (0 : ℚ) < t := by exact_mod_cast ht
  have hcast : (10 : ℚ) * w = t * dd + r := by exact_mod_cast hq
  have hrtQ : (r : ℚ) < t := by exact_mod_cast hrt
  have hdiff : ((dd : ℚ) + 1) / 10 - (w : ℚ) / t = ((t : ℚ) - r) / (10 * t) := by
    rw [div_sub_div _ _ (by norm_num) (ne_of_gt htQ)]
    rw [div_eq_div_iff (by positivity) (by positivity)]
    ring_nf
    nlinarith [hcast]
  rw [hdiff, abs_div, abs_of_nonneg (by linarith : (0:ℚ) ≤ (t:ℚ) - r),
    abs_of_pos (by positivity : (0:ℚ) < 10 * (t:ℚ))]
  rw [div_le_div_iff₀ (by positivity) (by norm_num)]
  have h2Q : (t : ℚ) ≤ 2 * r := by exact_mod_cast h2
  linarith

/-- The rounded tenths value is within half a tenth of the exact ratio. -/
theorem roundTenthsNat_close (w t : Nat) (ht : 0 < t) :
    |(roundTenthsNat w t : ℚ) / 10 - (w : ℚ) / (t : ℚ)| ≤ 1 / 20 := by
  have hq : 10 * w = t * (10 * w / t) + 10 * w % t := (Nat.div_add_mod (10 * w) t).symm
  have hrt : 10 * w % t < t := Nat.mod_lt _ ht
  rw [roundTenthsNat]
  split
  · rename_i h1
    exact ratioTenths_bound_down w t _ _ ht hq (by omega)
  · rename_i h1
    split
    · rename_i h2
      have := ratioTenths_bound_up w t (10 * w / t) (10 * w % t) ht hq hrt (by omega)
      simpa [Nat.cast_add] using this
    · rename_i h2
      split
      · exact ratioTenths_bound_down w t _ _ ht hq (by omega)
      · have := ratioTenths_bound_up w t (10 * w / t) (10 * w % t) ht hq hrt (by omega)
        simpa [Nat.cast_add] using this

/-- **C6** counterexample: the claim (and the spec's worked example) state
that the distribution `{star5: 80, star4: 10, star3: 5, star2: 3, star1: 2}`
yields the weighted average 4.58, but the code's weighted sum is
`80·5 + 10·4 + 5·3 + 3·2 + 2·1 = 463`, so the average is 4.63, not 4.58
(both happen to render as `"4.6"`). -/
theorem C6_counterexample :
    weightedSum starsExample = 463 ∧ totalPercent starsExample = 100 ∧
    (weightedSum starsExample : ℚ) / (totalPercent starsExample : ℚ) ≠ 458 / 100 ∧
    (weightedSum starsExample : ℚ) / (totalPercent starsExample : ℚ) = 463 / 100 := by
  refine ⟨by decide, by decide, ?_, ?_⟩
  · rw [show weightedSum starsExample = 463 by decide,
      show totalPercent starsExample = 100 by decide]
    norm_num
  · rw [show weightedSum starsExample = 463 by decide,
      show totalPercent starsExample = 100 by decide]
    norm_num

/-- **C6** (corrected): the 12-month seller rating is the weighted average
`Σ(star_n · n) / Σ(star_n)` rendered to one decimal place (the rendering is
within half a tenth of the exact average), the computation is skipped when
the percentage total is zero, and the distribution
`{star5: 80, star4: 10, star3: 5, star2: 3, star1: 2}` has weighted sum 463
and average 4.63 — not 4.58 as claimed — and renders as `"4.6"`. -/
theorem C6_weighted_seller_rating :
    (∀ (d : RatingFragment) (info : SellerInfo),
      totalPercent d = 0 →
        (applyTwelveMonth d info).seller_rating = info.seller_rating) ∧
    (∀ (d : RatingFragment) (info : SellerInfo),
      d.star5.isSome = true → 0 < totalPercent d →
        (applyTwelveMonth d info).seller_rating
          = formatRatioTenths (weightedSum d) (totalPercent d)) ∧
    (∀ w t : Nat, 0 < t →
      |(roundTenthsNat w t : ℚ) / 10 - (w : ℚ) / (t : ℚ)| ≤ 1 / 20) ∧
    (applyTwelveMonth starsExample
      SellerInfo.init).seller_rating = "4.6" ∧
    weightedSum starsExample = 463 ∧
    totalPercent starsExample = 100 ∧
    formatRatioTenths 463 100 = "4.6" := by
  refine ⟨?_, ?_, roundTenthsNat_close, by decide, by decide, by decide, by decide⟩
  · intro d info h
    cases hrc : d.ratingCount <;> cases hs5 : d.star5 <;>
      simp [applyTwelveMonth, hrc, hs5, h]
  · intro d info h5 ht
    cases hrc : d.ratingCount <;>
      simp [applyTwelveMonth, hrc, h5, ht]

/-- Closed witness for the hypotheses of `C6_weighted_seller_rating`,
applied at the claim's concrete star distribution. -/
theorem C6_weighted_seller_rating_witness :
    (applyTwelveMonth starsExample
      SellerInfo.init).seller_rating
      = formatRatioTenths
          (weightedSum starsExample)
          (totalPercent starsExample) ∧
    |(roundTenthsNat 463 100 : ℚ) / 10 - (463 : ℚ) / (100 : ℚ)| ≤ 1 / 20 :=
  ⟨C6_weighted_seller_rating.2.1 _ _ (by decide) (by decide),
   by simpa using C6_weighted_seller_rating.2.2.1 463 100 (by decide)⟩

/-! ## The effective-period rating override (C8) -/

/-- **C8** (confirmed): after seller-page processing, when the current
12-month rating is the sentinel or the literal `"4.9"`, an existing
"effective period" rating element with non-empty text overwrites it; for
any other current value this step leaves the record unchanged.  The third
conjunct exercises the step inside `_scrape_seller_page` itself. -/
theorem C8_effective_period_override :
    (∀ (info : SellerInfo) (t : String),
      (info.seller_rating = "Not found" ∨ info.seller_rating = "4.9") → t ≠ "" →
        applyEffectiveYear (some t) info = { info with seller_rating := t }) ∧
    (∀ (info : SellerInfo) (t? : Option String),
      info.seller_rating ≠ "Not found" → info.seller_rating ≠ "4.9" →
        applyEffectiveYear t? info = info) ∧
    (∀ (info : SellerInfo) (t : String), t ≠ "" →
      (scrape_seller_page { effectiveYearText := some t } info).seller_rating
        = if info.seller_rating = "4.9" ∨ info.seller_rating = "Not found"
          then t else info.seller_rating) := by
  refine ⟨?_, ?_, ?_⟩
  · intro info t h ht
    rw [applyEffectiveYear, if_pos (Or.symm h)]
    simp [ht]
  · intro info t? h1 h2
    rw [applyEffectiveYear.eq_def, if_neg (by push_neg; exact ⟨h2, h1⟩)]
  · intro info t ht
    have h1 : ∀ i : SellerInfo, (applyReviewsFill none i).seller_rating = i.seller_rating := by
      intro i; rw [applyReviewsFill]; split <;> rfl
    have h2 : ∀ i : SellerInfo,
        (applyPositiveFeedback none none i).seller_rating = i.seller_rating := by
      intro i; rw [applyPositiveFeedback]; split <;> rfl
    show (applyPositiveFeedback none none (applyReviewsFill none
        (applyEffectiveYear (some t) info))).seller_rating = _
    rw [h2, h1, applyEffectiveYear]
    by_cases hc : info.seller_rating = "4.9" ∨ info.seller_rating = "Not found"
    · rw [if_pos hc, if_pos hc]
      simp [ht]
    · rw [if_neg hc, if_neg hc]

/-- Closed witness for the hypotheses of `C8_effective_period_override`:
the `"4.9"` special case is overwritten by the effective-period text. -/
theorem C8_effective_period_override_witness :
    applyEffectiveYear (some "4.7") { SellerInfo.init with seller_rating := "4.9" }
      = { SellerInfo.init with seller_rating := "4.7" } := by
  have := C8_effective_period_override.1
    { SellerInfo.init with seller_rating := "4.9" } "4.7" (Or.inr rfl) (by decide)
  simpa using this

/-! ## Atomicity of the currency conversion (C10) -/

/-- **C10** (confirmed): for a non-USD symbol with an unparseable amount
the conversion returns both components unchanged; in general the handler
either leaves the pair unchanged or rewrites amount and symbol together —
never one without the other. -/
theorem C10_currency_conversion_atomic :
    (∀ (price currency_symbol : String) (rate : ℚ),
      (currency_symbol = "PKR" ∨ currency_symbol = "₨" ∨ currency_symbol = "Rs") →
      parsePyFloat price = none →
      handle_currency_conversion price currency_symbol rate = (price, currency_symbol)) ∧
    (∀ (price currency_symbol : String) (rate : ℚ),
      handle_currency_conversion price currency_symbol rate = (price, currency_symbol) ∨
      ∃ v, parsePyFloat price = some v ∧
        handle_currency_conversion price currency_symbol rate
          = (formatFixed (v * rate) 2, "$")) := by
  constructor
  · intro price currency_symbol rate hc hp
    rw [handle_currency_conversion]
    by_cases hnf : price = "Not found"
    · rw [if_neg]
      simp [hnf]
    · rw [if_pos ⟨hnf, hc⟩, hp]
  · intro price currency_symbol rate
    rw [handle_currency_conversion]
    split
    · cases hp : parsePyFloat price with
      | none => exact Or.inl rfl
      | some v => exact Or.inr ⟨v, rfl, rfl⟩
    · exact Or.inl rfl

/-- Closed witness for the hypotheses of `C10_currency_conversion_atomic`
at the claim's unparseable amount `"1.2.3"`. -/
theorem C10_currency_conversion_atomic_witness :
    handle_currency_conversion "1.2.3" "PKR" DEFAULT_EXCHANGE_RATE = ("1.2.3", "PKR") :=
  C10_currency_conversion_atomic.1 "1.2.3" "PKR" DEFAULT_EXCHANGE_RATE
    (Or.inl rfl) (by decide)

/-! ## `seller_id` data flow (C1): only the profile-link stage writes it -/

@[simp] theorem SellerInfo.init_seller_id : SellerInfo.init.seller_id = some "Not found" := rfl

@[simp] theorem sellerStageA_seller_id (a b c : Bool) (info : SellerInfo) :
    (sellerStageA a b c info).seller_id = info.seller_id := by
  rw [sellerStageA]
  split <;> split <;> rfl

@[simp] theorem extract_seller_from_buybox_seller_id (t? : Option String)
    (info : SellerInfo) :
    (extract_seller_from_buybox t? info).seller_id = info.seller_id := by
  cases t? with
  | none => rfl
  | some txt =>
      rw [extract_seller_from_buybox]
      split <;> split <;> rfl

@[simp] theorem extract_seller_feedback_seller_id (t? : Option String)
    (info : SellerInfo) :
    (extract_seller_feedback t? info).seller_id = info.seller_id := by
  cases t? with
  | none => rfl
  | some txt =>
      rw [extract_seller_feedback]
      split <;> split <;> rfl

@[simp] theorem detailBulletsStep_seller_id (bullets : List String) :
    ∀ info : SellerInfo, (detailBulletsStep bullets info).seller_id = info.seller_id := by
  induction bullets with
  | nil => intro info; rfl
  | cons b bs ih =>
      intro info
      rw [detailBulletsStep, List.foldl_cons]
      rw [show List.foldl _ _ bs = detailBulletsStep bs _ from rfl, ih]
      dsimp only
      repeat' split
      all_goals rfl

@[simp] theorem applyTwelveMonth_seller_id (d : RatingFragment) (info : SellerInfo) :
    (applyTwelveMonth d info).seller_id = info.seller_id := by
  rw [applyTwelveMonth]
  repeat' split
  all_goals rfl

@[simp] theorem applyLifetime_seller_id (d : RatingFragment) (info : SellerInfo) :
    (applyLifetime d info).seller_id = info.seller_id := by
  rw [applyLifetime]
  repeat' split
  all_goals rfl

@[simp] theorem applyRatingYear_seller_id (t? : Option String) (info : SellerInfo) :
    (applyRatingYear t? info).seller_id = info.seller_id := by
  rw [applyRatingYear.eq_def]
  split <;> try rfl
  split <;> rfl

@[simp] theorem applyEffectiveYear_seller_id (t? : Option String) (info : SellerInfo) :
    (applyEffectiveYear t? info).seller_id = info.seller_id := by
  rw [applyEffectiveYear.eq_def]
  split <;> try rfl
  split <;> try rfl
  split <;> rfl

@[simp] theorem applyReviewsFill_seller_id (t? : Option String) (info : SellerInfo) :
    (applyReviewsFill t? info).seller_id = info.seller_id := by
  rw [applyReviewsFill.eq_def]
  split <;> try rfl
  split <;> rfl

@[simp] theorem applyPositiveFeedback_seller_id (a b : Option String) (info : SellerInfo) :
    (applyPositiveFeedback a b info).seller_id = info.seller_id := by
  rw [applyPositiveFeedback.eq_def]
  split <;> try rfl
  split <;> try rfl
  split <;> try rfl
  split <;> rfl

@[simp] theorem scrape_seller_page_seller_id (page : SellerPageDoc) (info : SellerInfo) :
    (scrape_seller_page page info).seller_id = info.seller_id := by
  rw [scrape_seller_page]
  simp only [applyPositiveFeedback_seller_id, applyReviewsFill_seller_id,
    applyEffectiveYear_seller_id, applyRatingYear_seller_id]
  split <;> try simp only [applyLifetime_seller_id]
  all_goals split <;> try simp only [applyTwelveMonth_seller_id]

@[simp] theorem bylinePart_seller_id (bl : Option LinkElem) (info : SellerInfo) :
    (bylinePart bl info).seller_id = info.seller_id := by
  cases bl with
  | none => rfl
  | some lnk =>
      rw [bylinePart]
      repeat' (first | split | dsimp only)

/-- The value of `seller_id` after the profile-link block, as a function of
the seller profile link. -/
theorem sellerLinkPart_seller_id (sl : Option LinkElem) (info : SellerInfo) :
    (sellerLinkPart sl info).seller_id =
      match sl with
      | some lnk =>
          match lnk.href with
          | some h => get_seller_id_from_url (urljoin BASE_URL h)
          | none => info.seller_id
      | none => info.seller_id := by
  cases sl with
  | none => rfl
  | some lnk =>
      cases hhref : lnk.href with
      | none =>
          rw [sellerLinkPart]
          dsimp only
          rw [hhref]
          repeat' (first | split | dsimp only)
      | some h =>
          rw [sellerLinkPart]
          dsimp only
          rw [hhref]

/-- The value of `seller_id` after the link stage, as a function of the
seller profile link. -/
theorem extract_seller_from_links_seller_id (sl bl : Option LinkElem)
    (info : SellerInfo) :
    (extract_seller_from_links sl bl info).seller_id =
      match sl with
      | some lnk =>
          match lnk.href with
          | some h => get_seller_id_from_url (urljoin BASE_URL h)
          | none => info.seller_id
      | none => info.seller_id := by
  rw [extract_seller_from_links, bylinePart_seller_id, sellerLinkPart_seller_id]

/-- Closed witness for the hypotheses of `C3_fragment_selection`, applying
its parts at the concrete three-fragment list of the claim. -/
theorem C3_fragment_selection_witness :
    (400 ≤ (⟨some 450, none, none, none, none, none⟩ : RatingFragment).rc ∧
      (⟨some 450, none, none, none, none, none⟩ : RatingFragment).rc ≤ 500 ∧
      ∃ l1 l2, [(⟨some 120, none, none, none, none, none⟩ : RatingFragment),
          ⟨some 450, none, none, none, none, none⟩,
          ⟨some 900, none, none, none, none, none⟩]
          = l1 ++ (⟨some 450, none, none, none, none, none⟩ : RatingFragment) :: l2 ∧
        ∀ x ∈ l1, ¬(400 ≤ x.rc ∧ x.rc ≤ 500)) ∧
    ((⟨some 900, none, none, none, none, none⟩ : RatingFragment)
        ∈ [(⟨some 120, none, none, none, none, none⟩ : RatingFragment),
          ⟨some 450, none, none, none, none, none⟩,
          ⟨some 900, none, none, none, none, none⟩] ∧
      500 < (⟨some 900, none, none, none, none, none⟩ : RatingFragment).rc ∧
      ∀ x ∈ [(⟨some 120, none, none, none, none, none⟩ : RatingFragment),
          ⟨some 450, none, none, none, none, none⟩,
          ⟨some 900, none, none, none, none, none⟩],
        x.rc ≤ (⟨some 900, none, none, none, none, none⟩ : RatingFragment).rc) :=
  ⟨C3_fragment_selection.1 _ _ (by decide),
   C3_fragment_selection.2.1 _ _ (by decide)⟩

/-- `seller_id` after the whole seller pipeline: it is written only by the
profile-link stage, from the `seller` query parameter of the resolved store
URL. -/
theorem extract_seller_details_seller_id (doc : Doc) (sp : Option SellerPageDoc) :
    (extract_seller_details doc sp).seller_id =
      match doc.sellerLink with
      | some lnk =>
          match lnk.href with
          | some h => get_seller_id_from_url (urljoin BASE_URL h)
          | none => some "Not found"
      | none => some "Not found" := by
  rw [extract_seller_details.eq_def]
  dsimp only
  split
  · cases sp <;> simp [extract_seller_from_links_seller_id]
  · simp [extract_seller_from_links_seller_id]

/-- **C1** counterexample: a document whose seller profile link has an
`href` without a `seller` query parameter produces a `SellerInfo` whose
`seller_id` is Python `None` (modelled as `none`) — not a string and not
the sentinel `"Not found"` — contradicting the claim that every field holds
a string after the link is processed. -/
theorem C1_counterexample :
    (extract_seller_details
      { sellerLink := some { text := "SellerX", href := some "/sp?ie=UTF8&isCBA=1" } }
      none).seller_id = none := by decide

/-- **C1** (corrected): all `SellerInfo` string fields other than
`seller_id` always hold a string (they are `String`-typed in the model);
`seller_id` however can end up `None`: it is null exactly when the document
has a seller profile link with an `href` whose resolved URL has no usable
`seller` query parameter.  Otherwise it holds the extracted id or the
sentinel. -/
theorem C1_seller_id_amended (doc : Doc) (sp : Option SellerPageDoc) :
    (extract_seller_details doc sp).seller_id = none ↔
      ∃ lnk h, doc.sellerLink = some lnk ∧ lnk.href = some h ∧
        get_seller_id_from_url (urljoin BASE_URL h) = none := by
  rw [extract_seller_details_seller_id]
  cases hsl : doc.sellerLink with
  | none => simp
  | some lnk =>
      cases hhref : lnk.href with
      | none => simp [hhref]
      | some h => simp [hhref]

/-- **C5** (confirmed): a document with none of the seller markup patterns
(no fulfilled-by text, no badge, no buybox containers, no seller or byline
links, no feedback link, no detail bullets) yields a `SellerInfo` with
every string field at the sentinel and both flags false — the freshly
initialised record — and the scrape still returns a valid `Product` owning
that record. -/
theorem C5_no_seller_markup (doc : Doc) (sp : Option SellerPageDoc) (rate : ℚ)
    (h1 : doc.hasFulfilledText = false) (h2 : doc.hasAcBadge = false)
    (h3 : doc.buyboxText = none) (h4 : doc.sellerLink = none)
    (h5 : doc.bylineLink = none) (h6 : doc.feedbackText = none)
    (h7 : doc.detailBullets = []) :
    extract_seller_details doc sp = SellerInfo.init ∧
    ∃ p : Product, scrape 200 doc sp rate = some p ∧
      p.seller_details = SellerInfo.init := by
  have hsd : extract_seller_details doc sp = SellerInfo.init := by
    rw [extract_seller_details.eq_def, h1, h2, h3, h4, h5, h6, h7]
    rfl
  exact ⟨hsd, ⟨_, rfl, hsd⟩⟩

/-- Closed witness for the hypotheses of `C5_no_seller_markup`: the fully
empty document. -/
theorem C5_no_seller_markup_witness :
    extract_seller_details {} none = SellerInfo.init ∧
    ∃ p : Product, scrape 200 {} none 0 = some p ∧
      p.seller_details = SellerInfo.init :=
  C5_no_seller_markup {} none 0 rfl rfl rfl rfl rfl rfl rfl

/-! ## Display omission of sentinel fields (C4) -/

theorem ne_concat_at (a q w : String) (i : Nat) (hiq : i < q.data.length)
    (hne : a.data[i]? ≠ q.data[i]?) : a ≠ q ++ w := by
  intro he
  apply hne
  rw [he]
  show (q ++ w).data[i]? = q.data[i]?
  rw [show (q ++ w).data = q.data ++ w.data from rfl, List.getElem?_append_left hiq]

theorem ne_concat2_at (a p v w : String) (i : Nat) (hip : i < p.data.length)
    (hne : a.data[i]? ≠ p.data[i]?) : a ≠ p ++ v ++ w := by
  intro he
  apply hne
  rw [he]
  show ((p ++ v) ++ w).data[i]? = p.data[i]?
  rw [show ((p ++ v) ++ w).data = (p.data ++ v.data) ++ w.data from rfl,
    List.getElem?_append_left (Nat.lt_of_lt_of_le hip (by simp)),
    List.getElem?_append_left hip]

theorem mem_ite_singleton {c : Prop} [Decidable c] (a x : String) :
    x ∈ (if c then [a] else []) ↔ c ∧ x = a := by
  split
  · rename_i h; simp [h]
  · rename_i h; simp [h]


theorem seller_rating_sentinel_not_displayed (s : SellerInfo) (h : s.seller_rating = "Not found") :
    "    Seller Rating: Not found/5" ∉ displaySellerLines s := by
  simp only [displaySellerLines, h, List.mem_append, List.mem_cons, List.not_mem_nil,
    mem_ite_singleton, not_or, or_false, ne_eq, not_true, false_and, not_false_iff,
    true_and, and_true, and_assoc]
  exact ⟨by decide,
    ne_concat_at _ _ _ 2 (by decide) (by decide),
    ne_concat_at _ _ _ 2 (by decide) (by decide),
    by decide,
    fun hc => ne_concat_at _ _ _ 12 (by decide) (by decide) hc.2,
    by decide,
    fun hc => ne_concat2_at _ _ _ _ 4 (by decide) (by decide) hc.2,
    fun hc => ne_concat_at _ _ _ 4 (by decide) (by decide) hc.2,
    fun hc => ne_concat_at _ _ _ 0 (by decide) (by decide) hc.2,
    fun hc => ne_concat_at _ _ _ 2 (by decide) (by decide) hc.2,
    fun hc => ne_concat_at _ _ _ 2 (by decide) (by decide) hc.2,
    fun hc => ne_concat_at _ _ _ 2 (by decide) (by decide) hc.2,
    fun hc => ne_concat2_at _ _ _ _ 2 (by decide) (by decide) hc.2⟩


theorem seller_reviews_sentinel_not_displayed (s : SellerInfo) (h : s.seller_reviews = "Not found") :
    "    Seller Reviews: Not found" ∉ displaySellerLines s := by
  simp only [displaySellerLines, h, List.mem_append, List.mem_cons, List.not_mem_nil,
    mem_ite_singleton, not_or, or_false, ne_eq, not_true, false_and, not_false_iff,
    true_and, and_true, and_assoc]
  exact ⟨by decide,
    ne_concat_at _ _ _ 2 (by decide) (by decide),
    ne_concat_at _ _ _ 2 (by decide) (by decide),
    by decide,
    fun hc => ne_concat2_at _ _ _ _ 12 (by decide) (by decide) hc.2,
    by decide,
    fun hc => ne_concat2_at _ _ _ _ 4 (by decide) (by decide) hc.2,
    fun hc => ne_concat_at _ _ _ 4 (by decide) (by decide) hc.2,
    fun hc => ne_concat_at _ _ _ 0 (by decide) (by decide) hc.2,
    fun hc => ne_concat_at _ _ _ 2 (by decide) (by decide) hc.2,
    fun hc => ne_concat_at _ _ _ 2 (by decide) (by decide) hc.2,
    fun hc => ne_concat_at _ _ _ 2 (by decide) (by decide) hc.2,
    fun hc => ne_concat2_at _ _ _ _ 2 (by decide) (by decide) hc.2⟩


theorem lifetime_rating_sentinel_not_displayed (s : SellerInfo) (h : s.lifetime_rating = "Not found") :
    "    Lifetime Rating: Not found/5" ∉ displaySellerLines s := by
  simp only [displaySellerLines, h, List.mem_append, List.mem_cons, List.not_mem_nil,
    mem_ite_singleton, not_or, or_false, ne_eq, not_true, false_and, not_false_iff,
    true_and, and_true, and_assoc]
  exact ⟨by decide,
    ne_concat_at _ _ _ 2 (by decide) (by decide),
    ne_concat_at _ _ _ 2 (by decide) (by decide),
    by decide,
    fun hc => ne_concat2_at _ _ _ _ 4 (by decide) (by decide) hc.2,
    fun hc => ne_concat_at _ _ _ 4 (by decide) (by decide) hc.2,
    by decide,
    fun hc => ne_concat_at _ _ _ 14 (by decide) (by decide) hc.2,
    fun hc => ne_concat_at _ _ _ 0 (by decide) (by decide) hc.2,
    fun hc => ne_concat_at _ _ _ 2 (by decide) (by decide) hc.2,
    fun hc => ne_concat_at _ _ _ 2 (by decide) (by decide) hc.2,
    fun hc => ne_concat_at _ _ _ 2 (by decide) (by decide) hc.2,
    fun hc => ne_concat2_at _ _ _ _ 2 (by decide) (by decide) hc.2⟩


theorem lifetime_reviews_sentinel_not_displayed (s : SellerInfo) (h : s.lifetime_reviews = "Not found") :
    "    Lifetime Reviews: Not found" ∉ displaySellerLines s := by
  simp only [displaySellerLines, h, List.mem_append, List.mem_cons, List.not_mem_nil,
    mem_ite_singleton, not_or, or_false, ne_eq, not_true, false_and, not_false_iff,
    true_and, and_true, and_assoc]
  exact ⟨by decide,
    ne_concat_at _ _ _ 2 (by decide) (by decide),
    ne_concat_at _ _ _ 2 (by decide) (by decide),
    by decide,
    fun hc => ne_concat2_at _ _ _ _ 4 (by decide) (by decide) hc.2,
    fun hc => ne_concat_at _ _ _ 4 (by decide) (by decide) hc.2,
    by decide,
    fun hc => ne_concat2_at _ _ _ _ 14 (by decide) (by decide) hc.2,
    fun hc => ne_concat_at _ _ _ 0 (by decide) (by decide) hc.2,
    fun hc => ne_concat_at _ _ _ 2 (by decide) (by decide) hc.2,
    fun hc => ne_concat_at _ _ _ 2 (by decide) (by decide) hc.2,
    fun hc => ne_concat_at _ _ _ 2 (by decide) (by decide) hc.2,
    fun hc => ne_concat2_at _ _ _ _ 2 (by decide) (by decide) hc.2⟩


theorem seller_since_sentinel_not_displayed (s : SellerInfo) (h : s.seller_since = "Not found") :
    "\n  Seller Since: Not found" ∉ displaySellerLines s := by
  simp only [displaySellerLines, h, List.mem_append, List.mem_cons, List.not_mem_nil,
    mem_ite_singleton, not_or, or_false, ne_eq, not_true, false_and, not_false_iff,
    true_and, and_true, and_assoc]
  exact ⟨by decide,
    ne_concat_at _ _ _ 0 (by decide) (by decide),
    ne_concat_at _ _ _ 0 (by decide) (by decide),
    by decide,
    fun hc => ne_concat2_at _ _ _ _ 0 (by decide) (by decide) hc.2,
    fun hc => ne_concat_at _ _ _ 0 (by decide) (by decide) hc.2,
    by decide,
    fun hc => ne_concat2_at _ _ _ _ 0 (by decide) (by decide) hc.2,
    fun hc => ne_concat_at _ _ _ 0 (by decide) (by decide) hc.2,
    fun hc => ne_concat_at _ _ _ 0 (by decide) (by decide) hc.2,
    fun hc => ne_concat_at _ _ _ 0 (by decide) (by decide) hc.2,
    fun hc => ne_concat_at _ _ _ 0 (by decide) (by decide) hc.2,
    fun hc => ne_concat2_at _ _ _ _ 0 (by decide) (by decide) hc.2⟩


theorem positive_feedback_sentinel_not_displayed (s : SellerInfo) (h : s.positive_feedback = "Not found") :
    "  Positive Feedback: Not found" ∉ displaySellerLines s := by
  simp only [displaySellerLines, h, List.mem_append, List.mem_cons, List.not_mem_nil,
    mem_ite_singleton, not_or, or_false, ne_eq, not_true, false_and, not_false_iff,
    true_and, and_true, and_assoc]
  exact ⟨by decide,
    ne_concat_at _ _ _ 2 (by decide) (by decide),
    ne_concat_at _ _ _ 2 (by decide) (by decide),
    by decide,
    fun hc => ne_concat2_at _ _ _ _ 2 (by decide) (by decide) hc.2,
    fun hc => ne_concat_at _ _ _ 2 (by decide) (by decide) hc.2,
    by decide,
    fun hc => ne_concat2_at _ _ _ _ 2 (by decide) (by decide) hc.2,
    fun hc => ne_concat_at _ _ _ 2 (by decide) (by decide) hc.2,
    fun hc => ne_concat_at _ _ _ 0 (by decide) (by decide) hc.2,
    fun hc => ne_concat_at _ _ _ 2 (by decide) (by decide) hc.2,
    fun hc => ne_concat_at _ _ _ 2 (by decide) (by decide) hc.2,
    fun hc => ne_concat2_at _ _ _ _ 2 (by decide) (by decide) hc.2⟩


theorem shipped_by_sentinel_not_displayed (s : SellerInfo) (h : s.shipped_by = "Not found") :
    "  Shipped By: Not found" ∉ displaySellerLines s := by
  simp only [displaySellerLines, h, List.mem_append, List.mem_cons, List.not_mem_nil,
    mem_ite_singleton, not_or, or_false, ne_eq, not_true, false_and, not_false_iff,
    true_and, and_true, and_assoc]
  exact ⟨by decide,
    ne_concat_at _ _ _ 3 (by decide) (by decide),
    ne_concat_at _ _ _ 3 (by decide) (by decide),
    by decide,
    fun hc => ne_concat2_at _ _ _ _ 2 (by decide) (by decide) hc.2,
    fun hc => ne_concat_at _ _ _ 2 (by decide) (by decide) hc.2,
    by decide,
    fun hc => ne_concat2_at _ _ _ _ 2 (by decide) (by decide) hc.2,
    fun hc => ne_concat_at _ _ _ 2 (by decide) (by decide) hc.2,
    fun hc => ne_concat_at _ _ _ 0 (by decide) (by decide) hc.2,
    fun hc => ne_concat_at _ _ _ 2 (by decide) (by decide) hc.2,
    fun hc => ne_concat_at _ _ _ 3 (by decide) (by decide) hc.2,
    fun hc => ne_concat2_at _ _ _ _ 3 (by decide) (by decide) hc.2⟩


theorem sold_by_sentinel_not_displayed (s : SellerInfo) (h : s.sold_by = "Not found") :
    "  Sold By: Not found" ∉ displaySellerLines s := by
  simp only [displaySellerLines, h, List.mem_append, List.mem_cons, List.not_mem_nil,
    mem_ite_singleton, not_or, or_false, ne_eq, not_true, false_and, not_false_iff,
    true_and, and_true, and_assoc]
  exact ⟨by decide,
    ne_concat_at _ _ _ 3 (by decide) (by decide),
    ne_concat_at _ _ _ 3 (by decide) (by decide),
    by decide,
    fun hc => ne_concat2_at _ _ _ _ 2 (by decide) (by decide) hc.2,
    fun hc => ne_concat_at _ _ _ 2 (by decide) (by decide) hc.2,
    by decide,
    fun hc => ne_concat2_at _ _ _ _ 2 (by decide) (by decide) hc.2,
    fun hc => ne_concat_at _ _ _ 2 (by decide) (by decide) hc.2,
    fun hc => ne_concat_at _ _ _ 0 (by decide) (by decide) hc.2,
    fun hc => ne_concat_at _ _ _ 2 (by decide) (by decide) hc.2,
    fun hc => ne_concat_at _ _ _ 3 (by decide) (by decide) hc.2,
    fun hc => ne_concat2_at _ _ _ _ 3 (by decide) (by decide) hc.2⟩


theorem seller_description_sentinel_not_displayed (s : SellerInfo) (h : s.seller_description = "Not found") :
    "  Seller Description: Not found..." ∉ displaySellerLines s := by
  simp only [displaySellerLines, h, List.mem_append, List.mem_cons, List.not_mem_nil,
    mem_ite_singleton, not_or, or_false, ne_eq, not_true, false_and, not_false_iff,
    true_and, and_true, and_assoc]
  exact ⟨by decide,
    ne_concat_at _ _ _ 9 (by decide) (by decide),
    ne_concat_at _ _ _ 9 (by decide) (by decide),
    by decide,
    fun hc => ne_concat2_at _ _ _ _ 2 (by decide) (by decide) hc.2,
    fun hc => ne_concat_at _ _ _ 2 (by decide) (by decide) hc.2,
    by decide,
    fun hc => ne_concat2_at _ _ _ _ 2 (by decide) (by decide) hc.2,
    fun hc => ne_concat_at _ _ _ 2 (by decide) (by decide) hc.2,
    fun hc => ne_concat_at _ _ _ 0 (by decide) (by decide) hc.2,
    fun hc => ne_concat_at _ _ _ 2 (by decide) (by decide) hc.2,
    fun hc => ne_concat_at _ _ _ 3 (by decide) (by decide) hc.2,
    fun hc => ne_concat_at _ _ _ 3 (by decide) (by decide) hc.2⟩

/-- **C4** counterexample: for the freshly initialised seller record the
rendered summary *does* contain the sentinel string for `seller_name` and
`seller_store_url` — these two lines are printed unconditionally, so not
every sentinel-valued field is omitted from display. -/
theorem C4_counterexample :
    "  Seller Name: Not found" ∈ displaySellerLines SellerInfo.init ∧
    "  Seller Store URL: Not found" ∈ displaySellerLines SellerInfo.init := by
  exact ⟨by decide, by decide⟩

/-- **C4** (corrected): in the rendered summary every seller field *except*
`seller_name` and `seller_store_url` is omitted when still at the sentinel
(its line does not occur in the output), and is rendered when set; the name
and store-URL lines are always rendered, sentinel value included. -/
theorem C4_display_omission_amended (s : SellerInfo) :
    ("  Seller Name: " ++ s.seller_name) ∈ displaySellerLines s ∧
    ("  Seller Store URL: " ++ s.seller_store_url) ∈ displaySellerLines s ∧
    (s.seller_rating ≠ "Not found" →
      ("    Seller Rating: " ++ s.seller_rating ++ "/5") ∈ displaySellerLines s) ∧
    (s.seller_reviews ≠ "Not found" →
      ("    Seller Reviews: " ++ s.seller_reviews) ∈ displaySellerLines s) ∧
    (s.lifetime_rating ≠ "Not found" →
      ("    Lifetime Rating: " ++ s.lifetime_rating ++ "/5") ∈ displaySellerLines s) ∧
    (s.lifetime_reviews ≠ "Not found" →
      ("    Lifetime Reviews: " ++ s.lifetime_reviews) ∈ displaySellerLines s) ∧
    (s.seller_since ≠ "Not found" →
      ("\n  Seller Since: " ++ s.seller_since) ∈ displaySellerLines s) ∧
    (s.positive_feedback ≠ "Not found" →
      ("  Positive Feedback: " ++ s.positive_feedback) ∈ displaySellerLines s) ∧
    (s.shipped_by ≠ "Not found" →
      ("  Shipped By: " ++ s.shipped_by) ∈ displaySellerLines s) ∧
    (s.sold_by ≠ "Not found" →
      ("  Sold By: " ++ s.sold_by) ∈ displaySellerLines s) ∧
    (s.seller_description ≠ "Not found" →
      ("  Seller Description: " ++ s.seller_description.take 100 ++ "...")
        ∈ displaySellerLines s) ∧
    (s.seller_rating = "Not found" →
      "    Seller Rating: Not found/5" ∉ displaySellerLines s) ∧
    (s.seller_reviews = "Not found" →
      "    Seller Reviews: Not found" ∉ displaySellerLines s) ∧
    (s.lifetime_rating = "Not found" →
      "    Lifetime Rating: Not found/5" ∉ displaySellerLines s) ∧
    (s.lifetime_reviews = "Not found" →
      "    Lifetime Reviews: Not found" ∉ displaySellerLines s) ∧
    (s.seller_since = "Not found" →
      "\n  Seller Since: Not found" ∉ displaySellerLines s) ∧
    (s.positive_feedback = "Not found" →
      "  Positive Feedback: Not found" ∉ displaySellerLines s) ∧
    (s.shipped_by = "Not found" →
      "  Shipped By: Not found" ∉ displaySellerLines s) ∧
    (s.sold_by = "Not found" →
      "  Sold By: Not found" ∉ displaySellerLines s) ∧
    (s.seller_description = "Not found" →
      "  Seller Description: Not found..." ∉ displaySellerLines s) := by
  refine ⟨by simp [displaySellerLines], by simp [displaySellerLines],
    fun h => by simp [displaySellerLines, mem_ite_singleton, h],
    fun h => by simp [displaySellerLines, mem_ite_singleton, h],
    fun h => by simp [displaySellerLines, mem_ite_singleton, h],
    fun h => by simp [displaySellerLines, mem_ite_singleton, h],
    fun h => by simp [displaySellerLines, mem_ite_singleton, h],
    fun h => by simp [displaySellerLines, mem_ite_singleton, h],
    fun h => by simp [displaySellerLines, mem_ite_singleton, h],
    fun h => by simp [displaySellerLines, mem_ite_singleton, h],
    fun h => by simp [displaySellerLines, mem_ite_singleton, h],
    seller_rating_sentinel_not_displayed s,
    seller_reviews_sentinel_not_displayed s,
    lifetime_rating_sentinel_not_displayed s,
    lifetime_reviews_sentinel_not_displayed s,
    seller_since_sentinel_not_displayed s,
    positive_feedback_sentinel_not_displayed s,
    shipped_by_sentinel_not_displayed s,
    sold_by_sentinel_not_displayed s,
    seller_description_sentinel_not_displayed s⟩

/-- Closed witness for the hypotheses of `C4_display_omission_amended`:
at the initial record the sentinel rating line is omitted, and a set field
is rendered. -/
theorem C4_display_omission_amended_witness :
    ("    Seller Rating: Not found/5" ∉ displaySellerLines SellerInfo.init) ∧
    ("  Shipped By: FBA Inc"
      ∈ displaySellerLines { SellerInfo.init with shipped_by := "FBA Inc" }) := by
  constructor
  · obtain ⟨-, -, -, -, -, -, -, -, -, -, -, h12, -, -, -, -, -, -, -, -⟩ :=
      C4_display_omission_amended SellerInfo.init
    exact h12 rfl
  · obtain ⟨-, -, -, -, -, -, -, -, h9, -, -, -, -, -, -, -, -, -, -, -⟩ :=
      C4_display_omission_amended { SellerInfo.init with shipped_by := "FBA Inc" }
    exact h9 (by decide)
